import Mathlib

/-!
# Verification of the Flask2Fly scaffolding scripts

Shallow embedding of `utils/repo_gen.py` and `utils/flask_keygen.py`.
Strings are modelled as `List Char` (Python `str` is a sequence of code
points); Python's `str.replace`, `str.startswith`, substring tests,
`str.splitlines`-style helpers and the `re` idioms used by the scripts are
embedded as executable Lean functions below.  File systems are modelled as
association lists from paths to file data.  External effects (the OpenAI
API, `json.loads`, HTTP downloads, `secrets.token_hex`) are parameters of
the embedded functions.
-/

set_option autoImplicit false

namespace Flask2Fly

/-! ## String machinery (Python string primitives on `List Char`) -/

/-- Python `str.startswith` on character lists. -/
def startsWithL : List Char → List Char → Bool
  | [], _ => true
  | _ :: _, [] => false
  | p :: ps, c :: cs => p == c && startsWithL ps cs

/-- Python `pat in s` (substring test) on character lists. -/
def containsL (pat : List Char) : List Char → Bool
  | [] => pat.isEmpty
  | c :: rest => startsWithL pat (c :: rest) || containsL pat rest

/-- `pat` occurs as a contiguous substring of `l`. -/
def occursP (pat l : List Char) : Prop := ∃ a b : List Char, l = a ++ pat ++ b

/-- Fuel-driven worker for `replaceAll`; the fuel is an upper bound on the
length of the remaining input, so the definition is structurally recursive
and kernel-reducible. -/
def replaceGo (pat rep : List Char) : Nat → List Char → List Char
  | _, [] => []
  | 0, l => l
  | fuel + 1, c :: rest =>
    if !pat.isEmpty && startsWithL pat (c :: rest) then
      rep ++ replaceGo pat rep fuel ((c :: rest).drop pat.length)
    else
      c :: replaceGo pat rep fuel rest

/-- Python `s.replace(pat, rep)` for a nonempty literal `pat`: replace the
left-to-right non-overlapping occurrences of `pat` in `s` by `rep`.  (The
scripts only ever call `replace` with nonempty literal patterns.) -/
def replaceAll (pat rep l : List Char) : List Char := replaceGo pat rep l.length l

/-- Python `s.replace(old, new)` on `String`. -/
def pyReplace (s old new : String) : String := String.mk (replaceAll old.data new.data s.data)

/-- Python `pat in s` on `String`. -/
def pyContains (s pat : String) : Bool := containsL pat.data s.data

/-- Character class `[a-zA-Z]`. -/
def isAlphaB (c : Char) : Bool := ('A' ≤ c && c ≤ 'Z') || ('a' ≤ c && c ≤ 'z')

/-- Character class `[a-zA-Z0-9_-]`. -/
def isNameCharB (c : Char) : Bool :=
  isAlphaB c || ('0' ≤ c && c ≤ '9') || c == '_' || c == '-'

/-- Mathematical (full-string) reading of `^[a-zA-Z][a-zA-Z0-9_-]*$`, i.e.
the language the spec's pattern denotes.  This is the spec-side predicate of
claim C4. -/
def matchesPattern : List Char → Bool
  | [] => false
  | c :: rest => isAlphaB c && rest.all isNameCharB

/-- Python `re.match(r'^[a-zA-Z][a-zA-Z0-9_-]*$', ·)` as a Boolean: a match
succeeds on the full string, or on the string minus a single trailing
newline (Python `$` semantics). -/
def pyMatchNamePattern (l : List Char) : Bool :=
  matchesPattern l || (l.getLast? == some '\n' && matchesPattern l.dropLast)

/-- `validate_inputs` (repo_gen.py lines 34–41).  `true` means the function
returns normally; `false` means the process is terminated (`sys.exit(1)`,
either via the usage message for an empty name or via `print_error`). -/
def validate_inputs (project_name : String) : Bool :=
  if project_name = "" then false
  else pyMatchNamePattern project_name.data

/-- JSON values, as returned by `json.loads`. -/
inductive Json where
  | null
  | bool (b : Bool)
  | num (n : Int)
  | str (s : String)
  | arr (elems : List Json)
  | obj (fields : List (String × Json))

/-- Python whitespace stripped by `str.strip()` (the characters that occur
in API responses). -/
def isWSB (c : Char) : Bool := c == ' ' || c == '\t' || c == '\n' || c == '\r'

/-- Python `str.strip()`. -/
def stripL (l : List Char) : List Char :=
  ((l.dropWhile isWSB).reverse.dropWhile isWSB).reverse

/-- The part of a string after its first newline; `none` when there is no
newline (in which case Python's `split('\n', 1)[1]` raises `IndexError`). -/
def afterFirstNl : List Char → Option (List Char)
  | [] => none
  | c :: rest => if c = '\n' then some rest else afterFirstNl rest

/-- Python `s.rsplit('\n', 1)[0]`: the part before the last newline, or the
whole string when there is no newline. -/
def beforeLastNl (l : List Char) : List Char :=
  match afterFirstNl l.reverse with
  | some r => r.reverse
  | none => l

/-- Code-fence stripping in `generate_features` (lines 189–194): strip,
drop the first and last line when the text starts with a fence, and drop a
leading `json` tag.  `.error` models the `IndexError` of
`split('\n', 1)[1]` on a fence with no newline (caught by the function's
outer handler). -/
def stripFeatureFences (raw : String) : Except String String :=
  let clean := stripL raw.data
  if startsWithL "```".data clean then
    match afterFirstNl clean with
    | none => Except.error "IndexError"
    | some rest =>
      let c2 := beforeLastNl rest
      if startsWithL "json".data c2 then
        Except.ok (String.mk (stripL (c2.drop 4)))
      else Except.ok (String.mk c2)
  else Except.ok (String.mk clean)

/-- Code-fence stripping in `generate_theme` (lines 112–115): same as the
feature variant but without the `json`-tag handling. -/
def stripThemeFences (raw : String) : Except String String :=
  let clean := stripL raw.data
  if startsWithL "```".data clean then
    match afterFirstNl clean with
    | none => Except.error "IndexError"
    | some rest => Except.ok (String.mk (beforeLastNl rest))
  else Except.ok (String.mk clean)

/-- Python `element == "k"` for a JSON value. -/
def jsonEqStr (j : Json) (k : String) : Bool :=
  match j with
  | Json.str s => s == k
  | _ => false

/-- Python `k in feature` in the validation loop (line 205): key membership
for a dict, element membership for a list, substring test for a string; any
other value raises `TypeError`, modelled as `none`. -/
def pyContainsKey (j : Json) (k : String) : Option Bool :=
  match j with
  | Json.obj fields => some (fields.any (fun f => f.1 == k))
  | Json.arr elems => some (elems.any (fun e => jsonEqStr e k))
  | Json.str s => some (containsL k.data s.data)
  | _ => none

/-- `all(k in feature for k in ('icon', 'title', 'description'))`, with
Python's short-circuiting; `none` models a raised `TypeError`. -/
def featureKeysOk (j : Json) : Option Bool :=
  match pyContainsKey j "icon" with
  | none => none
  | some false => some false
  | some true =>
    match pyContainsKey j "title" with
    | none => none
    | some false => some false
    | some true => pyContainsKey j "description"

/-- The `for feature in features` validation loop (lines 204–207): `some
false` at the first feature missing a key, `none` at the first `TypeError`. -/
def validateFeatures : List Json → Option Bool
  | [] => some true
  | f :: rest =>
    match featureKeysOk f with
    | none => none
    | some false => some false
    | some true => validateFeatures rest

/-- `get_fallback_features` (repo_gen.py lines 220–243): the hard-coded
four-feature list, the first description interpolating the project name. -/
def get_fallback_features (project_name : String) : Json :=
  Json.arr
    [ Json.obj [("icon", Json.str "🚀"), ("title", Json.str "Quick Setup"),
        ("description", Json.str ("Get your " ++ project_name ++ " application running in minutes"))],
      Json.obj [("icon", Json.str "⚙️"), ("title", Json.str "Easy Configuration"),
        ("description", Json.str "Simple configuration management with environment variables")],
      Json.obj [("icon", Json.str "🔄"), ("title", Json.str "Auto Deployment"),
        ("description", Json.str "Integrated CI/CD pipeline with cloud deployment")],
      Json.obj [("icon", Json.str "📦"), ("title", Json.str "Modular Design"),
        ("description", Json.str "Extensible architecture with support for feature modules")] ]

/-- The expression
`get_fallback_features(project_name) if project_name == "Flask2Fly" else None`
(repo_gen.py lines 201, 207, 214 and 218). -/
def fallbackOrNone (project_name : String) : Option Json :=
  if project_name = "Flask2Fly" then some (get_fallback_features project_name) else none

/-- `generate_features` (repo_gen.py lines 162–218).  The chat-completion
call and `json.loads` are external: `apiResponse` is the raw message
content (`.error` is an exception raised by the API call itself) and
`jsonParse` models `json.loads`.  The codomain marks a propagated exception
as `.error`; since the source catches every exception (`except Exception`)
and returns, every branch of the embedding is `.ok`: `.ok (some l)` is a
returned feature list, `.ok none` is Python `None`. -/
def generate_features (project_name : String) (apiResponse : Except String String)
    (jsonParse : String → Except String Json) : Except String (Option Json) :=
  match apiResponse with
  | Except.error _ => Except.ok (fallbackOrNone project_name)
  | Except.ok raw =>
    match stripFeatureFences raw with
    | Except.error _ => Except.ok (fallbackOrNone project_name)
    | Except.ok clean =>
      match jsonParse clean with
      | Except.error _ => Except.ok (fallbackOrNone project_name)
      | Except.ok features =>
        match features with
        | Json.arr fs =>
          if fs.length ≠ 4 then Except.ok (fallbackOrNone project_name)
          else
            match validateFeatures fs with
            | none => Except.ok (fallbackOrNone project_name)
            | some false => Except.ok (fallbackOrNone project_name)
            | some true => Except.ok (some (Json.arr fs))
        | _ => Except.ok (fallbackOrNone project_name)

/-- Python `colors["primary-color"]`: first binding of the key in a JSON
object; `none` models the raised `KeyError`/`TypeError`. -/
def jsonLookup (j : Json) (k : String) : Option Json :=
  match j with
  | Json.obj fields => (fields.find? (fun f => f.1 == k)).map (fun f => f.2)
  | _ => none

/-- `generate_theme` (repo_gen.py lines 89–141).  External effects are
parameters: `colorResponse` is the chat-completion message content (or an
exception from that API call), `jsonParse` models `json.loads`,
`imageResult` is the image-generation URL (or an API exception), and
`downloadStatus`/`downloadBody` model `requests.get` on that URL.
`.error` is a propagated exception (the source's handler logs and
re-raises); `.ok` returns the parsed color object and the logo bytes. -/
def generate_theme (colorResponse : Except String String)
    (jsonParse : String → Except String Json)
    (imageResult : Json → Except String String)
    (downloadStatus : String → Nat) (downloadBody : String → List Nat) :
    Except String (Json × List Nat) :=
  match colorResponse with
  | Except.error e => Except.error e
  | Except.ok raw =>
    match stripThemeFences raw with
    | Except.error e => Except.error e
    | Except.ok clean =>
      match jsonParse clean with
      | Except.error _ => Except.error "Failed to parse theme colors from API response"
      | Except.ok colors =>
        match jsonLookup colors "primary-color" with
        | none => Except.error "KeyError: primary-color"
        | some _ =>
          match imageResult colors with
          | Except.error e => Except.error e
          | Except.ok logo_url =>
            if downloadStatus logo_url ≠ 200 then
              Except.error "Failed to download generated logo"
            else
              Except.ok (colors, downloadBody logo_url)

/-- A file-system subtree: a plain file with its content, or a directory
with named entries. -/
inductive FsTree where
  | file (content : String)
  | dir (entries : List (String × FsTree))

/-- Look a name up in a directory listing. -/
def lookupEntry (entries : List (String × FsTree)) (nm : String) : Option FsTree :=
  match entries with
  | [] => none
  | e :: rest => if e.1 = nm then some e.2 else lookupEntry rest nm

/-- Remove a name from a directory listing. -/
def eraseEntry (entries : List (String × FsTree)) (nm : String) : List (String × FsTree) :=
  match entries with
  | [] => []
  | e :: rest => if e.1 = nm then eraseEntry rest nm else e :: eraseEntry rest nm

/-- The `app_dir.rename(new_app_dir)` step of `rename_project_files`
(line 66): `Path.rename` raises `FileNotFoundError` when the source entry
is gone (which happens exactly when the preceding `rmtree` deleted it,
i.e. when the project is named `app_name`). -/
def renameStep (entries : List (String × FsTree)) (project_name : String) :
    Except String (List (String × FsTree)) :=
  match lookupEntry entries "app_name" with
  | none => Except.error "FileNotFoundError"
  | some t => Except.ok (eraseEntry entries "app_name" ++ [(project_name, t)])

/-- `rename_project_files` (repo_gen.py lines 51–66), acting on the listing
of the `src` directory (`none` models a missing `src` directory).  Mirrors
the source order: fatal error if `src` or `src/app_name` is missing; if
`src/<project_name>` already exists it is deleted by `shutil.rmtree`
(which raises `NotADirectoryError` on a plain file); then `src/app_name`
is renamed to `src/<project_name>`. -/
def rename_project_files (src : Option (List (String × FsTree))) (project_name : String) :
    Except String (List (String × FsTree)) :=
  match src with
  | none => Except.error "Source directory not found"
  | some entries =>
    match lookupEntry entries "app_name" with
    | none => Except.error "App directory not found"
    | some _ =>
      match lookupEntry entries project_name with
      | some (FsTree.file _) => Except.error "NotADirectoryError"
      | some (FsTree.dir _) => renameStep (eraseEntry entries project_name) project_name
      | none => renameStep entries project_name

/-- Python `s.endswith(suf)` on character lists. -/
def endsWithL (suf l : List Char) : Bool := startsWithL suf.reverse l.reverse

/-- A path matched by `project_path.rglob("*.py")`. -/
def isPyPath (p : String) : Bool := endsWithL ".py".data p.data

/-- File contents as read by `Path.read_text(encoding='utf-8')`: decodable
text, or bytes on which decoding raises `UnicodeDecodeError`. -/
inductive FileData where
  | text (content : String)
  | undecodable

/-- The project tree as a flat association list from paths (relative to the
project root, `/`-separated) to file data. -/
abbrev FS := List (String × FileData)

/-- Read a file; `none` means the path does not exist. -/
def readFile : FS → String → Option FileData
  | [], _ => none
  | e :: rest, p => if e.1 = p then some e.2 else readFile rest p

/-- Overwrite an existing file (`write_text`); the rewrite passes only ever
write paths they just read, so no creation case is needed. -/
def writeFile : FS → String → FileData → FS
  | [], _, _ => []
  | e :: rest, p, d =>
    if e.1 = p then (e.1, d) :: writeFile rest p d else e :: writeFile rest p d

/-- Apply a per-file update to every entry of the tree (the
`for ... in rglob/glob` loops: each file is read and rewritten
independently). -/
def mapEntries (g : String → FileData → FileData) (fs : FS) : FS :=
  fs.map (fun e => (e.1, g e.1 e.2))

/-- The per-file body of `update_python_files` (lines 76–87): apply the two
import-rewrite patterns in order (the second tested against the content
already rewritten by the first), write back only when a pattern occurred;
`UnicodeDecodeError` produces a warning and leaves the file unchanged. -/
def pyFileUpdate (project_name : String) (d : FileData) : FileData :=
  match d with
  | FileData.undecodable => FileData.undecodable
  | FileData.text c =>
    let step1 := if pyContains c "from app_name" then
        pyReplace c "from app_name" ("from " ++ project_name) else c
    let step2 := if pyContains step1 "import app_name" then
        pyReplace step1 "import app_name" ("import " ++ project_name) else step1
    if pyContains c "from app_name" || pyContains step1 "import app_name" then
      FileData.text step2
    else FileData.text c

/-- `update_python_files` (repo_gen.py lines 68–87): rewrite every `*.py`
file under the project tree. -/
def update_python_files (project_name : String) (fs : FS) : FS :=
  mapEntries (fun p d => if isPyPath p then pyFileUpdate project_name d else d) fs

/-- Python `str.lower()` on the ASCII range (validated project names are
ASCII). -/
def pyLowerChar (c : Char) : Char :=
  if 'A' ≤ c ∧ c ≤ 'Z' then Char.ofNat (c.toNat + 32) else c

/-- Python `str.upper()` on the ASCII range. -/
def pyUpperChar (c : Char) : Char :=
  if 'a' ≤ c ∧ c ≤ 'z' then Char.ofNat (c.toNat - 32) else c

/-- Python `s.lower()`. -/
def pyLower (s : String) : String := String.mk (s.data.map pyLowerChar)

/-- Python `s.upper()`. -/
def pyUpper (s : String) : String := String.mk (s.data.map pyUpperChar)

/-- Split into lines at `'\n'` (the line structure seen by `re.MULTILINE`
anchors; a trailing newline yields a final empty line). -/
def splitOnNl : List Char → List (List Char)
  | [] => [[]]
  | c :: rest =>
    if c = '\n' then [] :: splitOnNl rest
    else
      match splitOnNl rest with
      | [] => [[c]]
      | h :: t => (c :: h) :: t

/-- Rejoin lines with `'\n'` (inverse of `splitOnNl`). -/
def joinNl : List (List Char) → List Char
  | [] => []
  | [l] => l
  | l :: rest => l ++ '\n' :: joinNl rest

/-- Length of the maximal leading run of `[a-zA-Z0-9_-]` characters. -/
def identRunLen : List Char → Nat
  | [] => 0
  | c :: rest => if isNameCharB c then identRunLen rest + 1 else 0

/-- One line of `re.sub(r'^app = .*$', f"app = '{name}'", c, flags=re.MULTILINE)`
(line 251): a line starting with `app = ` is replaced wholesale. -/
def flyLineSub (project_name : String) (line : List Char) : List Char :=
  if startsWithL "app = ".data line then
    "app = '".data ++ project_name.data ++ "'".data
  else line

/-- `fly.toml` rule of `files_to_update` (line 251). -/
def update_flytoml (project_name : String) (c : String) : String :=
  String.mk (joinNl ((splitOnNl c.data).map (flyLineSub project_name)))

/-- One line of `re.sub(r'^  [a-zA-Z0-9_-]*:', f"  {name}:", c, flags=re.MULTILINE)`
(line 252): two spaces, a maximal identifier run and a colon are replaced by
`  <name>:`; the remainder of the line is preserved. -/
def composeLineSub (project_name : String) (line : List Char) : List Char :=
  if startsWithL "  ".data line then
    match (line.drop 2).drop (identRunLen (line.drop 2)) with
    | ':' :: tail => "  ".data ++ project_name.data ++ ':' :: tail
    | _ => line
  else line

/-- `docker-compose.yml` rule of `files_to_update` (line 252). -/
def update_composeyml (project_name : String) (c : String) : String :=
  String.mk (joinNl ((splitOnNl c.data).map (composeLineSub project_name)))

/-- `Dockerfile` rule of `files_to_update` (line 253). -/
def update_dockerfile (project_name : String) (c : String) : String :=
  pyReplace c "src/app_name/static" ("src/" ++ project_name ++ "/static")

/-- `README.md` rule of `files_to_update` (line 254). -/
def update_readme (project_name : String) (c : String) : String :=
  pyReplace c "Flask2Fly" project_name

/-- The `files_to_update` dictionary (repo_gen.py lines 250–255), in
iteration order. -/
def files_to_update (project_name : String) : List (String × (String → String)) :=
  [("fly.toml", update_flytoml project_name),
   ("docker-compose.yml", update_composeyml project_name),
   ("Dockerfile", update_dockerfile project_name),
   ("README.md", update_readme project_name)]

/-- One iteration of the base-configuration loop (lines 257–266): a missing
file is skipped, an undecodable file produces a warning and is left
unmodified, otherwise the file is rewritten in place. -/
def processConfigFile (fs : FS) (entry : String × (String → String)) : FS :=
  match readFile fs entry.1 with
  | none => fs
  | some FileData.undecodable => fs
  | some (FileData.text c) => writeFile fs entry.1 (FileData.text (entry.2 c))

/-- The base-configuration loop of `update_configuration_files`
(lines 257–266). -/
def update_configuration_files_base (project_name : String) (fs : FS) : FS :=
  (files_to_update project_name).foldl processConfigFile fs

/-- `project_path / "src" / project_name / "core.py"` (line 269). -/
def corePath (project_name : String) : String := "src/" ++ project_name ++ "/core.py"

/-- The `core.py` patch of `update_configuration_files` (lines 268–317).
The `re.sub` on the `inject_globals` function is abstracted as
`coreTransform`; `features` is the result of the `generate_features` call
(`none` is Python `None`, on which the formatting loop raises `TypeError`,
caught by the surrounding `except Exception`, so the file is left
unmodified).  A missing `core.py` is skipped; an undecodable one raises
inside the same `try` and is likewise left unmodified. -/
def update_core_file (project_name : String) (features : Option Json)
    (coreTransform : String → String) (fs : FS) : FS :=
  match readFile fs (corePath project_name) with
  | none => fs
  | some FileData.undecodable => fs
  | some (FileData.text c) =>
    match features with
    | none => fs
    | some _ => writeFile fs (corePath project_name) (FileData.text (coreTransform c))

/-- A path matched by `(src/<name>/templates).glob("**/*.html")` (line 326). -/
def isTemplatePath (project_name p : String) : Bool :=
  startsWithL ("src/" ++ project_name ++ "/templates/").data p.data &&
    endsWithL ".html".data p.data

/-- The four brand replacements applied to one template (lines 329–332). -/
def update_template_content (project_name : String) (c : String) : String :=
  let s1 := pyReplace c "Flask2Fly" project_name
  let s2 := pyReplace s1 "flask2fly" (pyLower project_name)
  let s3 := pyReplace s2 "FLASK2FLY" (pyUpper project_name)
  pyReplace s3 "flask2fly logo" (pyLower project_name ++ " logo")

/-- Per-file body of `update_template_files`: `UnicodeDecodeError` warns
and leaves the file unchanged. -/
def templateFileUpdate (project_name : String) (d : FileData) : FileData :=
  match d with
  | FileData.undecodable => FileData.undecodable
  | FileData.text c => FileData.text (update_template_content project_name c)

/-- `update_template_files` (repo_gen.py lines 322–335); when the template
directory is absent the glob matches nothing, which coincides with the
`template_dir.exists()` guard. -/
def update_template_files (project_name : String) (fs : FS) : FS :=
  mapEntries
    (fun p d => if isTemplatePath project_name p then templateFileUpdate project_name d else d)
    fs

/-- `update_configuration_files` (repo_gen.py lines 245–320): the
base-configuration loop, then the `core.py` patch, then the template pass.
`features` is the result of the `generate_features` call made on entry. -/
def update_configuration_files (project_name : String) (features : Option Json)
    (coreTransform : String → String) (fs : FS) : FS :=
  update_template_files project_name
    (update_core_file project_name features coreTransform
      (update_configuration_files_base project_name fs))

/-- Observable actions of `main` (repo_gen.py lines 491–564), in program
order. -/
inductive Event where
  | promptDescription
  | exitUsage
  | exitInvalidName
  | exitTargetExists
  | makeParentDirs
  | removeOldTempClone
  | gitClone
  | copyTemplate
  | cleanupTempClone
  | renamePhase
  | pythonRewritePhase
  | exitNoApiKey
  | configPhase
  | modulesPhase
  | initProjectPhase
  | themePhase
  | reportSuccess
  deriving DecidableEq

/-- The sequence of observable actions of one `main` run (lines 491–564);
`sys.exit` truncates the trace.  `argvHasName` is `len(sys.argv) >= 2`,
`targetExists` is `(project_dir / project_name).exists()`,
`tempCloneExists` is `temp_clone_path.exists()` and `apiKeyPresent` is
`os.getenv('OPENAI_API_KEY') is not None`. -/
def main_events (argvHasName : Bool) (project_name : String) (targetExists : Bool)
    (tempCloneExists : Bool) (apiKeyPresent : Bool) : List Event :=
  if !argvHasName then [Event.exitUsage]
  else
    Event.promptDescription ::
    (if validate_inputs project_name = false then [Event.exitInvalidName]
     else if targetExists then [Event.exitTargetExists]
     else
       [Event.makeParentDirs] ++
       (if tempCloneExists then [Event.removeOldTempClone] else []) ++
       [Event.gitClone, Event.copyTemplate, Event.cleanupTempClone,
        Event.renamePhase, Event.pythonRewritePhase] ++
       (if !apiKeyPresent then [Event.exitNoApiKey]
        else [Event.configPhase, Event.modulesPhase, Event.initProjectPhase,
              Event.themePhase, Event.reportSuccess]))

/-- Worker of Python `f.readlines()`: split keeping the `'\n'` terminators;
the accumulator holds the current line reversed. -/
def pyReadlinesAux : List Char → List Char → List (List Char)
  | [], acc => if acc.isEmpty then [] else [acc.reverse]
  | c :: rest, acc =>
    if c = '\n' then (acc.reverse ++ ['\n']) :: pyReadlinesAux rest []
    else pyReadlinesAux rest (c :: acc)

/-- Python `f.readlines()` on a file content. -/
def readlinesL (l : List Char) : List (List Char) := pyReadlinesAux l []

/-- The line written for the secret key: `f'FLASK_SECRET_KEY={secret_key}\n'`
(flask_keygen.py lines 22, 27 and 33). -/
def secretLine (secret_key : String) : List Char :=
  "FLASK_SECRET_KEY=".data ++ secret_key.data ++ ['\n']

/-- `update_env_file` (flask_keygen.py lines 9–35).  The generated key
(`secrets.token_hex(32)`) is a parameter; `env` is the current `.env`
content (`none` when the file does not exist); the result is the content
written back.  An existing file is read with `readlines()`, the first line
starting with `FLASK_SECRET_KEY=` is replaced (`break` after the first),
otherwise the key line is appended to the line list; `writelines`
concatenates. -/
def update_env_file (secret_key : String) (env : Option String) : String :=
  match env with
  | none => String.mk (secretLine secret_key)
  | some content =>
    let lines := readlinesL content.data
    match lines.findIdx? (fun l => startsWithL "FLASK_SECRET_KEY=".data l) with
    | some i => String.mk (List.flatten (lines.set i (secretLine secret_key)))
    | none => String.mk (List.flatten (lines ++ [secretLine secret_key]))

/-- A well-formed single line: nonempty, with `'\n'` allowed only as its
final character. -/
def isLine (l : List Char) : Bool := !l.isEmpty && l.dropLast.all (fun c => c != '\n')

/-- Modelled from the spec: the template repository's `README.md` is not
under `src/`; per §4.4 and §8 of the spec it carries the brand string
`Flask2Fly`, here as a heading and a sentence. -/
def README_src : String := "# Flask2Fly\nThe Flask2Fly repo.\n"

/-- Modelled from the spec: a template HTML file (not under `src/`); per
§4.4 the templates carry the brand in the case variants `Flask2Fly`,
`flask2fly` and `FLASK2FLY` targeted by lines 329–331. -/
def TEMPLATE_src : String := "<p>Flask2Fly</p>\n<p>flask2fly</p>\n<p>FLASK2FLY</p>\n"

/-- Modelled from the spec: the deployment manifest `fly.toml` (not under
`src/`); per §8 it carries an `app = '...'` line naming the brand. -/
def FLY_src : String := "app = 'Flask2Fly'\nprimary_region = 'iad'\n"

/-- Modelled from the spec: `docker-compose.yml` (not under `src/`), with a
brand-named service at the two-space indent targeted by line 252. -/
def COMPOSE_src : String := "services:\n  Flask2Fly:\n    build: .\n"

/-- Modelled from the spec: the `Dockerfile` (not under `src/`), carrying
the `src/app_name/static` path targeted by line 253. -/
def DOCKER_src : String := "COPY src/app_name/static ./static\n"

/-! ## Lemmas and claim theorems -/

lemma startsWithL_iff : ∀ pat l : List Char, startsWithL pat l = true ↔ pat <+: l := by
  intro pat
  induction pat with
  | nil => intro l; simp [startsWithL]
  | cons p ps ih =>
    intro l
    cases l with
    | nil => simp [startsWithL]
    | cons c cs =>
      simp [startsWithL, List.cons_prefix_cons, ih cs, Bool.and_eq_true, beq_iff_eq]

lemma occursP_nil_iff {pat : List Char} : occursP pat [] ↔ pat = [] := by
  constructor
  · rintro ⟨a, b, h⟩
    rcases List.append_eq_nil.mp h.symm with ⟨h1, h2⟩
    exact (List.append_eq_nil.mp h1).2
  · rintro rfl; exact ⟨[], [], rfl⟩

lemma occursP_cons {pat l : List Char} {c : Char} :
    occursP pat (c :: l) ↔ pat <+: (c :: l) ∨ occursP pat l := by
  constructor
  · rintro ⟨a, b, h⟩
    cases a with
    | nil => exact Or.inl ⟨b, by simpa using h.symm⟩
    | cons x a2 =>
      rcases h with h
      simp only [List.cons_append] at h
      exact Or.inr ⟨a2, b, by injection h with _ h2⟩
  · rintro (⟨t, ht⟩ | ⟨a, b, h⟩)
    · exact ⟨[], t, by simpa using ht.symm⟩
    · exact ⟨c :: a, b, by simp [h]⟩

lemma occursP_of_isPrefix {pat l : List Char} (h : pat <+: l) : occursP pat l := by
  rcases h with ⟨t, ht⟩
  exact ⟨[], t, by simpa using ht.symm⟩

lemma containsL_iff_occursP : ∀ pat l : List Char, containsL pat l = true ↔ occursP pat l := by
  intro pat l
  induction l with
  | nil =>
    simp [containsL, occursP_nil_iff, List.isEmpty_iff]
  | cons c rest ih =>
    simp [containsL, Bool.or_eq_true, startsWithL_iff, ih, occursP_cons]

lemma not_occursP_of_containsL {pat l : List Char} (h : containsL pat l = false) :
    ¬ occursP pat l := by
  intro hc
  rw [← containsL_iff_occursP] at hc
  rw [h] at hc
  exact Bool.false_ne_true hc

/-! ## Equation and decomposition lemmas for `replaceAll` -/

lemma replaceGo_congr (pat rep : List Char) :
    ∀ f g (l : List Char), l.length ≤ f → l.length ≤ g →
      replaceGo pat rep f l = replaceGo pat rep g l := by
  intro f
  induction f with
  | zero =>
    intro g l hf _
    have hl : l = [] := List.length_eq_zero.mp (Nat.le_zero.mp hf)
    subst hl
    cases g <;> rfl
  | succ f ih =>
    intro g l hf hg
    cases l with
    | nil => cases g <;> rfl
    | cons c rest =>
      cases g with
      | zero => simp at hg
      | succ g =>
        have hrf : rest.length ≤ f := by simpa using hf
        have hrg : rest.length ≤ g := by simpa using hg
        simp only [replaceGo]
        by_cases hcond : (!pat.isEmpty && startsWithL pat (c :: rest)) = true
        · rw [if_pos hcond, if_pos hcond]
          have hplen : 1 ≤ pat.length := by
            cases pat with
            | nil => simp at hcond
            | cons _ _ => simp
          have hd : ((c :: rest).drop pat.length).length ≤ rest.length := by
            simp only [List.length_drop, List.length_cons]
            omega
          exact congrArg (rep ++ ·) (ih g _ (le_trans hd hrf) (le_trans hd hrg))
        · rw [if_neg hcond, if_neg hcond]
          exact congrArg (c :: ·) (ih g rest hrf hrg)

lemma replaceAll_cons_miss (pat rep : List Char) (c : Char) (l : List Char)
    (h : startsWithL pat (c :: l) = false) :
    replaceAll pat rep (c :: l) = c :: replaceAll pat rep l := by
  unfold replaceAll
  simp only [List.length_cons, replaceGo, h, Bool.and_false, if_neg, Bool.false_eq_true,
    not_false_eq_true]

lemma replaceAll_cons_hit (pat rep : List Char) (c : Char) (l : List Char)
    (hne : pat ≠ []) (h : startsWithL pat (c :: l) = true) :
    replaceAll pat rep (c :: l) = rep ++ replaceAll pat rep ((c :: l).drop pat.length) := by
  unfold replaceAll
  have hcond : (!pat.isEmpty && startsWithL pat (c :: l)) = true := by
    simp [h, List.isEmpty_iff, hne]
  simp only [List.length_cons, replaceGo, hcond, if_pos]
  congr 1
  apply replaceGo_congr
  · have hplen : 1 ≤ pat.length := by
      cases pat with
      | nil => exact absurd rfl hne
      | cons _ _ => simp
    simp only [List.length_drop, List.length_cons]
    omega
  · exact le_refl _

lemma replaceAll_matched (pat rep l : List Char) (hne : pat ≠ []) :
    replaceAll pat rep (pat ++ l) = rep ++ replaceAll pat rep l := by
  cases pat with
  | nil => exact absurd rfl hne
  | cons p ps =>
    have hs : startsWithL (p :: ps) ((p :: ps) ++ l) = true :=
      (startsWithL_iff _ _).mpr (List.prefix_append _ _)
    rw [show (p :: ps) ++ l = p :: (ps ++ l) from rfl] at hs ⊢
    rw [replaceAll_cons_hit (p :: ps) rep p (ps ++ l) hne hs]
    congr 1
    have hd := List.drop_left (p :: ps) l
    rw [show (p :: ps) ++ l = p :: (ps ++ l) from rfl] at hd
    rw [hd]

lemma pref_split : ∀ (a : List Char) {p b : List Char}, p <+: a ++ b →
    p <+: a ∨ ∃ t, p = a ++ t ∧ t <+: b := by
  intro a
  induction a with
  | nil => intro p b h; exact Or.inr ⟨p, rfl, by simpa using h⟩
  | cons x a2 ih =>
    intro p b h
    cases p with
    | nil => exact Or.inl List.nil_prefix
    | cons q p2 =>
      rw [List.cons_append, List.cons_prefix_cons] at h
      rcases h with ⟨rfl, h2⟩
      rcases ih h2 with h3 | ⟨t, rfl, ht⟩
      · exact Or.inl ((List.cons_prefix_cons).mpr ⟨rfl, h3⟩)
      · exact Or.inr ⟨t, by simp, ht⟩

lemma occursP_append : ∀ (x : List Char) {pat y : List Char}, occursP pat (x ++ y) →
    occursP pat x ∨ occursP pat y ∨
      ∃ s t, pat = s ++ t ∧ s ≠ [] ∧ t ≠ [] ∧ s <:+ x ∧ t <+: y := by
  intro x
  induction x with
  | nil => intro pat y h; exact Or.inr (Or.inl (by simpa using h))
  | cons c x2 ih =>
    intro pat y h
    rw [List.cons_append] at h
    rcases occursP_cons.mp h with hp | htail
    · have hp2 : pat <+: (c :: x2) ++ y := by simpa using hp
      rcases pref_split (c :: x2) hp2 with h1 | ⟨t, rfl, ht⟩
      · exact Or.inl (occursP_of_isPrefix h1)
      · cases t with
        | nil => exact Or.inl ⟨[], [], by simp⟩
        | cons t0 t2 =>
          exact Or.inr (Or.inr ⟨c :: x2, t0 :: t2, rfl, by simp, by simp,
            List.suffix_refl _, ht⟩)
    · rcases ih htail with h1 | h2 | ⟨s, t, hst, hs, ht, hsx, hty⟩
      · rcases h1 with ⟨a, b, hab⟩
        exact Or.inl ⟨c :: a, b, by simp [hab]⟩
      · exact Or.inr (Or.inl h2)
      · exact Or.inr (Or.inr ⟨s, t, hst, hs, ht, hsx.trans (List.suffix_cons c x2), hty⟩)

lemma cross_kill_last {pat x y : List Char} {c : Char}
    (hx : x.getLast? = some c) (hc : c ∉ pat) :
    ¬ ∃ s t, pat = s ++ t ∧ s ≠ [] ∧ t ≠ [] ∧ s <:+ x ∧ t <+: y := by
  rintro ⟨s, t, rfl, hs, ht, hsx, hty⟩
  rcases hsx with ⟨u, rfl⟩
  rw [List.getLast?_append_of_ne_nil u hs] at hx
  have hmem : c ∈ s := by
    rw [List.getLast?_eq_getLast s hs] at hx
    have heq : s.getLast hs = c := Option.some_inj.mp hx
    rw [← heq]
    exact List.getLast_mem hs
  exact hc (List.mem_append.mpr (Or.inl hmem))

lemma cross_kill_head {pat x y : List Char} {c : Char}
    (hy : y.head? = some c) (hc : c ∉ pat) :
    ¬ ∃ s t, pat = s ++ t ∧ s ≠ [] ∧ t ≠ [] ∧ s <:+ x ∧ t <+: y := by
  rintro ⟨s, t, rfl, hs, ht, hsx, hty⟩
  rcases hty with ⟨v, rfl⟩
  rw [List.head?_append_of_ne_nil t ht] at hy
  have hmem : c ∈ t := by
    cases t with
    | nil => exact absurd rfl ht
    | cons t0 tl =>
      have h0 : t0 = c := by simpa using hy
      rw [← h0]
      exact List.mem_cons_self _ _
  exact hc (List.mem_append.mpr (Or.inr hmem))

lemma occurs_shift_concrete {pat y : List Char} (x : List Char) {c : Char}
    (h : occursP pat (x ++ y)) (hx : containsL pat x = false)
    (hlast : x.getLast? = some c) (hc : c ∉ pat) : occursP pat y := by
  rcases occursP_append x h with h1 | h2 | h3
  · exact absurd h1 (not_occursP_of_containsL hx)
  · exact h2
  · exact absurd h3 (cross_kill_last hlast hc)

lemma occurs_shift_hole {pat y : List Char} (x : List Char) {c : Char}
    (h : occursP pat (x ++ y)) (hx : ¬ occursP pat x)
    (hhead : y.head? = some c) (hc : c ∉ pat) : occursP pat y := by
  rcases occursP_append x h with h1 | h2 | h3
  · exact absurd h1 hx
  · exact h2
  · exact absurd h3 (cross_kill_head hhead hc)

lemma replaceAll_of_not_occursP (pat rep : List Char) :
    ∀ l : List Char, ¬ occursP pat l → replaceAll pat rep l = l := by
  intro l
  induction l with
  | nil => intro _; rfl
  | cons c rest ih =>
    intro h
    cases hb : startsWithL pat (c :: rest) with
    | true => exact absurd (occursP_of_isPrefix ((startsWithL_iff _ _).mp hb)) h
    | false =>
      rw [replaceAll_cons_miss pat rep c rest hb]
      have hrest : ¬ occursP pat rest := fun hr => h (occursP_cons.mpr (Or.inr hr))
      rw [ih hrest]

lemma replaceAll_append_skip (pat rep : List Char) :
    ∀ (x y : List Char),
      (∀ i, i < x.length → startsWithL pat (x.drop i ++ y) = false) →
      replaceAll pat rep (x ++ y) = x ++ replaceAll pat rep y := by
  intro x
  induction x with
  | nil => intro y _; rfl
  | cons c x2 ih =>
    intro y hyp
    have h0 : startsWithL pat (c :: (x2 ++ y)) = false := by
      have := hyp 0 (by simp)
      simpa using this
    have hyp2 : ∀ i, i < x2.length → startsWithL pat (x2.drop i ++ y) = false := by
      intro i hi
      have := hyp (i + 1) (by simpa using Nat.succ_lt_succ hi)
      simpa using this
    rw [List.cons_append, replaceAll_cons_miss pat rep c (x2 ++ y) h0, ih y hyp2]
    rfl

lemma replaceAll_append_of_head_notMem (hc : Char) (pt rep : List Char) :
    ∀ (x y : List Char), (∀ c ∈ x, c ≠ hc) →
      replaceAll (hc :: pt) rep (x ++ y) = x ++ replaceAll (hc :: pt) rep y := by
  intro x y hx
  apply replaceAll_append_skip (hc :: pt) rep x y
  intro i hi
  have hmem : x[i] ∈ x := List.getElem_mem hi
  have hne : (hc == x[i]) = false := by
    have : x[i] ≠ hc := hx _ hmem
    simp [beq_eq_false_iff_ne]
    exact fun he => this he.symm
  rw [List.drop_eq_getElem_cons hi, List.cons_append]
  simp [startsWithL, hne]

lemma replaceAll_append_hole (pat rep : List Char) :
    ∀ (x y : List Char) {c : Char}, ¬ occursP pat x → y.head? = some c → c ∉ pat →
      replaceAll pat rep (x ++ y) = x ++ replaceAll pat rep y := by
  intro x y c hocc hhead hc
  apply replaceAll_append_skip pat rep x y
  intro i hi
  cases hb : startsWithL pat (x.drop i ++ y) with
  | false => rfl
  | true =>
    exfalso
    have hp : pat <+: x.drop i ++ y := (startsWithL_iff _ _).mp hb
    rcases pref_split (x.drop i) hp with h1 | ⟨t, hpt, ht⟩
    · rcases h1 with ⟨r, hr⟩
      refine hocc ⟨x.take i, r, ?_⟩
      conv_lhs => rw [← List.take_append_drop i x]
      rw [← hr]
      simp
    · cases t with
      | nil =>
        refine hocc ⟨x.take i, [], ?_⟩
        rw [hpt]
        conv_lhs => rw [← List.take_append_drop i x]
        simp
      | cons t0 tl =>
        rcases ht with ⟨v, hv⟩
        have hc0 : t0 = c := by
          rw [← hv] at hhead
          simpa using hhead
        have hmem : t0 ∈ pat := by
          rw [hpt]
          exact List.mem_append.mpr (Or.inr (List.mem_cons_self _ _))
        rw [hc0] at hmem
        exact hc hmem

lemma occursP_of_occursP_extend {p l : List Char} (u v : List Char)
    (h : occursP (u ++ p ++ v) l) : occursP p l := by
  rcases h with ⟨a, b, hab⟩
  refine ⟨a ++ u, v ++ b, ?_⟩
  rw [hab]
  simp

/-! ## The project-name pattern (C4)

`validate_inputs` (repo_gen.py lines 34–41) rejects the empty name, then
checks `re.match(r'^[a-zA-Z][a-zA-Z0-9_-]*$', project_name)`.  Python's `$`
matches at the end of the string **or just before a single newline at the
end of the string**, which the embedding reproduces. -/

/-- C4.  The name `"ab\n"` does not match the spec's pattern
`^[A-Za-z][A-Za-z0-9_-]*$` (it contains a newline), yet `validate_inputs`
accepts it, because Python's `$` also matches just before a trailing
newline.  This refutes the claim that exactly the pattern-matching strings
are accepted. -/
theorem C4_counterexample :
    validate_inputs "ab\n" = true ∧ matchesPattern "ab\n".data = false := by
  constructor <;> decide

/-- C4 (amended).  `validate_inputs` accepts exactly the strings matching
`^[A-Za-z][A-Za-z0-9_-]*$` together with the strings consisting of such a
match followed by one trailing newline; every other string (empty, leading
digit, other symbols) is rejected with process termination. -/
theorem C4_validate_inputs_characterization (s : String) :
    validate_inputs s = true ↔
      (matchesPattern s.data = true ∨
        ∃ t : List Char, s.data = t ++ ['\n'] ∧ matchesPattern t = true) := by
  unfold validate_inputs
  by_cases hs : s = ""
  · subst hs
    simp only [if_pos rfl]
    constructor
    · intro h; exact absurd h (by decide)
    · rintro (h | ⟨t, ht, hm⟩)
      · exact absurd h (by decide)
      · exact absurd (congrArg List.length ht) (by simp [String.data])
  · simp only [if_neg hs, pyMatchNamePattern, Bool.or_eq_true, Bool.and_eq_true, beq_iff_eq]
    constructor
    · rintro (h | ⟨hlast, hdrop⟩)
      · exact Or.inl h
      · refine Or.inr ⟨s.data.dropLast, ?_, hdrop⟩
        have hne : s.data ≠ [] := by
          intro h0
          rw [h0] at hlast
          exact absurd hlast (by decide)
        conv_lhs => rw [← List.dropLast_append_getLast hne]
        rw [List.getLast?_eq_getLast s.data hne] at hlast
        simp [Option.some_inj.mp hlast]
    · rintro (h | ⟨t, ht, hm⟩)
      · exact Or.inl h
      · refine Or.inr ⟨?_, ?_⟩
        · rw [ht]; simp
        · rw [ht]; simpa using hm

/-! ## JSON values and the feature/theme generators (C1, C6) -/

/-- C1 (counterexample).  For the non-template project name `"MyApp"`, a
feature response that fails JSON parsing makes `generate_features` return
Python `None` (`.ok none`): no exception propagates to the caller, refuting
the claim that for non-template names the error propagates. -/
theorem C1_counterexample :
    generate_features "MyApp" (Except.ok "not json")
        (fun _ => Except.error "Expecting value") = Except.ok none := rfl

/-- C1 (amended).  The hard-coded fallback list is indeed returned only for
the template identity `"Flask2Fly"`; but for every other project name each
failure mode (API exception, fence `IndexError`, JSON parse failure, wrong
shape, missing fields) yields Python `None` rather than a propagated
exception — the only non-`None` successful results are length-4 JSON
arrays. -/
theorem C1_fallback_only_for_template (project_name : String)
    (apiResponse : Except String String) (jsonParse : String → Except String Json)
    (hname : project_name ≠ "Flask2Fly") :
    (generate_features project_name apiResponse jsonParse = Except.ok none ∨
      ∃ fs : List Json, generate_features project_name apiResponse jsonParse
          = Except.ok (some (Json.arr fs)) ∧ fs.length = 4) ∧
    (∀ e : String, generate_features "Flask2Fly" (Except.error e) jsonParse
        = Except.ok (some (get_fallback_features "Flask2Fly"))) := by
  constructor
  · have hfb : fallbackOrNone project_name = none := by
      simp [fallbackOrNone, hname]
    cases hapi : apiResponse with
    | error e => left; simp [generate_features, hfb]
    | ok raw =>
      cases hstrip : stripFeatureFences raw with
      | error e => left; simp [generate_features, hstrip, hfb]
      | ok clean =>
        cases hparse : jsonParse clean with
        | error e => left; simp [generate_features, hstrip, hparse, hfb]
        | ok features =>
          cases features with
          | arr fs =>
            by_cases hlen : fs.length = 4
            · cases hv : validateFeatures fs with
              | none => left; simp [generate_features, hstrip, hparse, hv, hlen, hfb]
              | some b =>
                cases b with
                | false => left; simp [generate_features, hstrip, hparse, hv, hlen, hfb]
                | true =>
                  right
                  exact ⟨fs, by simp [generate_features, hstrip, hparse, hv, hlen], hlen⟩
            · left; simp [generate_features, hstrip, hparse, hlen, hfb]
          | null => left; simp [generate_features, hstrip, hparse, hfb]
          | bool b => left; simp [generate_features, hstrip, hparse, hfb]
          | num n => left; simp [generate_features, hstrip, hparse, hfb]
          | str s => left; simp [generate_features, hstrip, hparse, hfb]
          | obj fields => left; simp [generate_features, hstrip, hparse, hfb]
  · intro e
    simp [generate_features, fallbackOrNone]

/-- C1 (witness for the amended theorem, at project name `"MyApp"` with a
failing API call). -/
theorem C1_witness :
    (generate_features "MyApp" (Except.error "boom") (fun _ => Except.error "bad")
        = Except.ok none ∨
      ∃ fs : List Json, generate_features "MyApp" (Except.error "boom")
          (fun _ => Except.error "bad") = Except.ok (some (Json.arr fs)) ∧ fs.length = 4) ∧
    (∀ e : String, generate_features "Flask2Fly" (Except.error e) (fun _ => Except.error "bad")
        = Except.ok (some (get_fallback_features "Flask2Fly"))) :=
  C1_fallback_only_for_template "MyApp" (Except.error "boom") (fun _ => Except.error "bad")
    (by decide)

/-- C6.  `generate_theme` propagates an error when the fence-stripped
response is not valid JSON (single attempt, no retry), and raises rather
than returning logo data when the HTTP download status is not 200. -/
theorem C6_generate_theme_error_propagation :
    (∀ (raw clean : String) (jsonParse : String → Except String Json)
        (imageResult : Json → Except String String)
        (downloadStatus : String → Nat) (downloadBody : String → List Nat) (e : String),
      stripThemeFences raw = Except.ok clean → jsonParse clean = Except.error e →
      generate_theme (Except.ok raw) jsonParse imageResult downloadStatus downloadBody
        = Except.error "Failed to parse theme colors from API response") ∧
    (∀ (raw clean url : String) (jsonParse : String → Except String Json)
        (imageResult : Json → Except String String)
        (downloadStatus : String → Nat) (downloadBody : String → List Nat)
        (colors c : Json),
      stripThemeFences raw = Except.ok clean → jsonParse clean = Except.ok colors →
      jsonLookup colors "primary-color" = some c → imageResult colors = Except.ok url →
      downloadStatus url ≠ 200 →
      generate_theme (Except.ok raw) jsonParse imageResult downloadStatus downloadBody
        = Except.error "Failed to download generated logo") := by
  constructor
  · intro raw clean jsonParse imageResult downloadStatus downloadBody e hstrip hparse
    simp [generate_theme, hstrip, hparse]
  · intro raw clean url jsonParse imageResult downloadStatus downloadBody colors c
      hstrip hparse hkey himg hstatus
    simp [generate_theme, hstrip, hparse, hkey, himg, hstatus]

/-- C6 (witness): a malformed color response, and a 404 logo download. -/
theorem C6_witness :
    generate_theme (Except.ok "nope") (fun _ => Except.error "bad json")
        (fun _ => Except.ok "u") (fun _ => 200) (fun _ => [])
      = Except.error "Failed to parse theme colors from API response" ∧
    generate_theme (Except.ok "{}")
        (fun _ => Except.ok (Json.obj [("primary-color", Json.str "#112233")]))
        (fun _ => Except.ok "http://x") (fun _ => 404) (fun _ => [])
      = Except.error "Failed to download generated logo" :=
  ⟨C6_generate_theme_error_propagation.1 "nope" "nope" (fun _ => Except.error "bad json")
      (fun _ => Except.ok "u") (fun _ => 200) (fun _ => []) "bad json" rfl rfl,
    C6_generate_theme_error_propagation.2 "{}" "{}" "http://x"
      (fun _ => Except.ok (Json.obj [("primary-color", Json.str "#112233")]))
      (fun _ => Except.ok "http://x") (fun _ => 404) (fun _ => [])
      (Json.obj [("primary-color", Json.str "#112233")]) (Json.str "#112233")
      rfl rfl rfl rfl (by decide)⟩

/-! ## The identifier rewrite (C2) -/

lemma lookupEntry_append (xs ys : List (String × FsTree)) (k : String) :
    lookupEntry (xs ++ ys) k =
      match lookupEntry xs k with
      | some v => some v
      | none => lookupEntry ys k := by
  induction xs with
  | nil => simp [lookupEntry]
  | cons e rest ih =>
    by_cases he : e.1 = k
    · simp [lookupEntry, he]
    · simp [lookupEntry, he, ih]

lemma lookupEntry_erase_self (xs : List (String × FsTree)) (k : String) :
    lookupEntry (eraseEntry xs k) k = none := by
  induction xs with
  | nil => simp [eraseEntry, lookupEntry]
  | cons e rest ih =>
    by_cases he : e.1 = k
    · simp [eraseEntry, he, ih]
    · simp [eraseEntry, lookupEntry, he, ih]

lemma lookupEntry_erase_other (xs : List (String × FsTree)) {k k' : String} (h : k' ≠ k) :
    lookupEntry (eraseEntry xs k) k' = lookupEntry xs k' := by
  induction xs with
  | nil => simp [eraseEntry]
  | cons e rest ih =>
    by_cases he : e.1 = k
    · have hne2 : e.1 ≠ k' := by
        intro hh
        exact h (by rw [← hh, he])
      simp only [eraseEntry, if_pos he, lookupEntry, if_neg hne2]
      exact ih
    · by_cases he2 : e.1 = k'
      · simp only [eraseEntry, if_neg he, lookupEntry, if_pos he2]
      · simp only [eraseEntry, if_neg he, lookupEntry, if_neg he2]
        exact ih

/-- C2 (counterexample).  With a sibling directory `src/assets` and project
name `assets`, the identifier-rewrite step deletes the sibling (and its
contents) and replaces it by the renamed placeholder: the run renames the
placeholder but does **not** leave every sibling directory unchanged. -/
theorem C2_counterexample :
    rename_project_files
        (some [("app_name", FsTree.dir []),
               ("assets", FsTree.dir [("keep.txt", FsTree.file "keep me")])])
        "assets"
      = Except.ok [("assets", FsTree.dir [])] := rfl

/-- C2 (amended).  For every project name other than `app_name` for which
no plain file `src/<project_name>` exists, `rename_project_files` renames
exactly the placeholder `src/app_name` to `src/<project_name>` and leaves
every other sibling entry unchanged; a sibling **named like the project**
is first deleted (`shutil.rmtree`) and replaced by the renamed placeholder. -/
theorem C2_rename_frame (entries : List (String × FsTree)) (project_name : String) (t : FsTree)
    (happ : lookupEntry entries "app_name" = some t)
    (hne : project_name ≠ "app_name")
    (hnofile : ∀ c, lookupEntry entries project_name ≠ some (FsTree.file c)) :
    ∃ l, rename_project_files (some entries) project_name = Except.ok l ∧
      lookupEntry l project_name = some t ∧
      lookupEntry l "app_name" = none ∧
      (∀ k, k ≠ project_name → k ≠ "app_name" → lookupEntry l k = lookupEntry entries k) := by
  cases hcase : lookupEntry entries project_name with
  | some tree =>
    cases tree with
    | file c => exact absurd hcase (hnofile c)
    | dir d =>
      have happ1 : lookupEntry (eraseEntry entries project_name) "app_name" = some t := by
        rw [lookupEntry_erase_other entries hne.symm]; exact happ
      refine ⟨eraseEntry (eraseEntry entries project_name) "app_name" ++ [(project_name, t)],
        by simp [rename_project_files, happ, hcase, renameStep, happ1], ?_, ?_, ?_⟩
      · rw [lookupEntry_append, lookupEntry_erase_other _ hne, lookupEntry_erase_self]
        simp [lookupEntry]
      · rw [lookupEntry_append, lookupEntry_erase_self]
        simp [lookupEntry, hne]
      · intro k hk1 hk2
        rw [lookupEntry_append, lookupEntry_erase_other _ hk2, lookupEntry_erase_other _ hk1]
        cases hk : lookupEntry entries k with
        | some v => simp
        | none => simp [lookupEntry, Ne.symm hk1]
  | none =>
    refine ⟨eraseEntry entries "app_name" ++ [(project_name, t)],
      by simp [rename_project_files, happ, hcase, renameStep], ?_, ?_, ?_⟩
    · rw [lookupEntry_append, lookupEntry_erase_other _ hne, hcase]
      simp [lookupEntry]
    · rw [lookupEntry_append, lookupEntry_erase_self]
      simp [lookupEntry, hne]
    · intro k hk1 hk2
      rw [lookupEntry_append, lookupEntry_erase_other _ hk2]
      cases hk : lookupEntry entries k with
      | some v => simp
      | none => simp [lookupEntry, Ne.symm hk1]

/-- C2 (witness for the amended theorem: the template layout with the
placeholder package and a sibling file `main.py`, renamed to `MyApp`). -/
theorem C2_witness :
    ∃ l, rename_project_files
        (some [("app_name", FsTree.dir []), ("main.py", FsTree.file "import app_name")]) "MyApp"
          = Except.ok l ∧
      lookupEntry l "MyApp" = some (FsTree.dir []) ∧
      lookupEntry l "app_name" = none ∧
      (∀ k, k ≠ "MyApp" → k ≠ "app_name" → lookupEntry l k
          = lookupEntry [("app_name", FsTree.dir []), ("main.py", FsTree.file "import app_name")] k) :=
  C2_rename_frame [("app_name", FsTree.dir []), ("main.py", FsTree.file "import app_name")]
    "MyApp" (FsTree.dir []) rfl (by decide)
    (fun c h => by simp [lookupEntry] at h)

lemma readFile_writeFile (fs : FS) (q p : String) (d : FileData) :
    readFile (writeFile fs q d) p =
      if p = q then (readFile fs q).map (fun _ => d) else readFile fs p := by
  induction fs with
  | nil => by_cases hp : p = q <;> simp [writeFile, readFile, hp]
  | cons e rest ih =>
    by_cases he : e.1 = q
    · by_cases hp : p = q
      · simp [writeFile, readFile, he, hp, ih]
      · have hne : e.1 ≠ p := by rw [he]; exact fun hh => hp hh.symm
        simp [writeFile, readFile, he, hp, hne, Ne.symm hp, ih]
    · by_cases hp : e.1 = p
      · have hpq : p ≠ q := by rw [← hp]; exact he
        simp [writeFile, readFile, he, hp, hpq]
      · simp [writeFile, readFile, he, hp, ih]

lemma readFile_mapEntries (g : String → FileData → FileData) (fs : FS) (p : String) :
    readFile (mapEntries g fs) p = (readFile fs p).map (g p) := by
  induction fs with
  | nil => simp [mapEntries, readFile]
  | cons e rest ih =>
    have ih2 : readFile (List.map (fun e => (e.1, g e.1 e.2)) rest) p
        = Option.map (g p) (readFile rest p) := ih
    by_cases he : e.1 = p
    · simp [mapEntries, readFile, he]
    · simp [mapEntries, readFile, he, ih2]

lemma pyFileUpdate_no_patterns (project_name c : String)
    (hfrom : pyContains c "from app_name" = false)
    (himp : pyContains c "import app_name" = false) :
    pyFileUpdate project_name (FileData.text c) = FileData.text c := by
  simp [pyFileUpdate, hfrom, himp]

lemma processConfigFile_preserves_none (fs : FS) (entry : String × (String → String))
    (f : String) (h : readFile fs f = none) :
    readFile (processConfigFile fs entry) f = none := by
  unfold processConfigFile
  cases hr : readFile fs entry.1 with
  | none => exact h
  | some d =>
    cases d with
    | undecodable => exact h
    | text c =>
      rw [readFile_writeFile]
      by_cases hf : f = entry.1
      · exfalso; rw [hf] at h; rw [h] at hr; exact Option.noConfusion hr
      · simp [hf, h]

lemma processConfigFile_preserves_undec (fs : FS) (entry : String × (String → String))
    (f : String) (h : readFile fs f = some FileData.undecodable) :
    readFile (processConfigFile fs entry) f = some FileData.undecodable := by
  unfold processConfigFile
  cases hr : readFile fs entry.1 with
  | none => exact h
  | some d =>
    cases d with
    | undecodable => exact h
    | text c =>
      rw [readFile_writeFile]
      by_cases hf : f = entry.1
      · exfalso
        rw [hf] at h
        rw [h] at hr
        exact FileData.noConfusion (Option.some_inj.mp hr)
      · simp [hf, h]

lemma processConfigFile_other (fs : FS) (entry : String × (String → String))
    (p : String) (h : entry.1 ≠ p) :
    readFile (processConfigFile fs entry) p = readFile fs p := by
  unfold processConfigFile
  cases hr : readFile fs entry.1 with
  | none => rfl
  | some d =>
    cases d with
    | undecodable => rfl
    | text c =>
      rw [readFile_writeFile, if_neg (show ¬ p = entry.1 from fun hh => h hh.symm)]

lemma processConfigFile_self (fs : FS) (entry : String × (String → String)) (c : String)
    (h : readFile fs entry.1 = some (FileData.text c)) :
    readFile (processConfigFile fs entry) entry.1 = some (FileData.text (entry.2 c)) := by
  unfold processConfigFile
  simp only [h]
  rw [readFile_writeFile]
  simp [h]

lemma foldl_processConfigFile_preserves_none (entries : List (String × (String → String))) :
    ∀ (fs : FS) (f : String), readFile fs f = none →
      readFile (entries.foldl processConfigFile fs) f = none := by
  induction entries with
  | nil => intro fs f h; exact h
  | cons e rest ih =>
    intro fs f h
    exact ih _ f (processConfigFile_preserves_none fs e f h)

lemma foldl_processConfigFile_preserves_undec (entries : List (String × (String → String))) :
    ∀ (fs : FS) (f : String), readFile fs f = some FileData.undecodable →
      readFile (entries.foldl processConfigFile fs) f = some FileData.undecodable := by
  induction entries with
  | nil => intro fs f h; exact h
  | cons e rest ih =>
    intro fs f h
    exact ih _ f (processConfigFile_preserves_undec fs e f h)

lemma update_core_file_preserves_none (project_name f : String) (features : Option Json)
    (tr : String → String) (fs : FS) (h : readFile fs f = none) :
    readFile (update_core_file project_name features tr fs) f = none := by
  unfold update_core_file
  cases hr : readFile fs (corePath project_name) with
  | none => exact h
  | some d =>
    cases d with
    | undecodable => exact h
    | text c =>
      cases features with
      | none => exact h
      | some j =>
        rw [readFile_writeFile]
        by_cases hf : f = corePath project_name
        · exfalso; rw [hf] at h; rw [h] at hr; exact Option.noConfusion hr
        · simp [hf, h]

lemma update_core_file_preserves_undec (project_name f : String) (features : Option Json)
    (tr : String → String) (fs : FS) (h : readFile fs f = some FileData.undecodable) :
    readFile (update_core_file project_name features tr fs) f = some FileData.undecodable := by
  unfold update_core_file
  cases hr : readFile fs (corePath project_name) with
  | none => exact h
  | some d =>
    cases d with
    | undecodable => exact h
    | text c =>
      cases features with
      | none => exact h
      | some j =>
        rw [readFile_writeFile]
        by_cases hf : f = corePath project_name
        · exfalso
          rw [hf] at h
          rw [h] at hr
          exact FileData.noConfusion (Option.some_inj.mp hr)
        · simp [hf, h]

lemma update_template_files_preserves_none (project_name f : String) (fs : FS)
    (h : readFile fs f = none) :
    readFile (update_template_files project_name fs) f = none := by
  rw [update_template_files, readFile_mapEntries, h]
  rfl

lemma update_template_files_preserves_undec (project_name f : String) (fs : FS)
    (h : readFile fs f = some FileData.undecodable) :
    readFile (update_template_files project_name fs) f = some FileData.undecodable := by
  rw [update_template_files, readFile_mapEntries, h]
  by_cases ht : isTemplatePath project_name f <;> simp [ht, templateFileUpdate]

/-- C9.  `update_python_files` writes a Python file back only when its
content contains `from app_name` or `import app_name`: a `.py` file
containing neither substring is left byte-for-byte unchanged by the pass. -/
theorem C9_python_pass_frame (project_name p c : String) (fs : FS)
    (hread : readFile fs p = some (FileData.text c))
    (hfrom : pyContains c "from app_name" = false)
    (himp : pyContains c "import app_name" = false) :
    readFile (update_python_files project_name fs) p = some (FileData.text c) := by
  rw [update_python_files, readFile_mapEntries, hread]
  by_cases hpy : isPyPath p
  · simp [hpy, pyFileUpdate_no_patterns project_name c hfrom himp]
  · simp [hpy]

/-- C9 (witness): a Python file with no placeholder import. -/
theorem C9_witness :
    readFile (update_python_files "MyApp" [("src/main.py", FileData.text "print(1)")])
        "src/main.py" = some (FileData.text "print(1)") :=
  C9_python_pass_frame "MyApp" "src/main.py" "print(1)"
    [("src/main.py", FileData.text "print(1)")] rfl (by decide) (by decide)

/-- C7.  A configuration file from the fixed set that does not exist in the
project tree is skipped without error and without being created: it is
still absent after the whole `update_configuration_files` pass (no phase of
the rewriter ever creates a file). -/
theorem C7_missing_config_file_skipped (project_name f : String) (features : Option Json)
    (coreTransform : String → String) (fs : FS)
    (_hf : f ∈ ["fly.toml", "docker-compose.yml", "Dockerfile", "README.md"])
    (habsent : readFile fs f = none) :
    readFile (update_configuration_files project_name features coreTransform fs) f = none := by
  unfold update_configuration_files
  apply update_template_files_preserves_none
  apply update_core_file_preserves_none
  exact foldl_processConfigFile_preserves_none _ _ f habsent

/-- C7 (witness): a tree with no `fly.toml`. -/
theorem C7_witness :
    readFile (update_configuration_files "MyApp" none id
        [("src/main.py", FileData.text "x")]) "fly.toml" = none :=
  C7_missing_config_file_skipped "MyApp" "fly.toml" none id
    [("src/main.py", FileData.text "x")] (by decide) rfl

/-- C8.  A `UnicodeDecodeError` on a file is non-fatal in every rewrite
pass: the undecodable file is left unmodified and the pipeline continues —
the configuration loop still rewrites the other (decodable) files, and the
Python and template passes still rewrite every decodable file they match. -/
theorem C8_decode_errors_nonfatal :
    (∀ (project_name : String) (features : Option Json) (coreTransform : String → String)
        (fs : FS) (f : String),
      readFile fs f = some FileData.undecodable →
      readFile (update_configuration_files project_name features coreTransform fs) f
        = some FileData.undecodable) ∧
    (∀ (project_name : String) (fs : FS) (c : String),
      readFile fs "README.md" = some (FileData.text c) →
      readFile (update_configuration_files_base project_name fs) "README.md"
        = some (FileData.text (update_readme project_name c))) ∧
    (∀ (project_name : String) (fs : FS) (q c : String),
      isPyPath q = true → readFile fs q = some (FileData.text c) →
      readFile (update_python_files project_name fs) q
        = some (pyFileUpdate project_name (FileData.text c))) ∧
    (∀ (project_name : String) (fs : FS) (q c : String),
      isTemplatePath project_name q = true → readFile fs q = some (FileData.text c) →
      readFile (update_template_files project_name fs) q
        = some (FileData.text (update_template_content project_name c))) := by
  refine ⟨?_, ?_, ?_, ?_⟩
  · intro project_name features coreTransform fs f h
    unfold update_configuration_files
    apply update_template_files_preserves_undec
    apply update_core_file_preserves_undec
    exact foldl_processConfigFile_preserves_undec _ _ f h
  · intro project_name fs c hread
    have step : ∀ (g : FS) (e : String × (String → String)), e.1 ≠ "README.md" →
        readFile g "README.md" = some (FileData.text c) →
        readFile (processConfigFile g e) "README.md" = some (FileData.text c) := by
      intro g e he hg
      rw [processConfigFile_other g e _ he]
      exact hg
    simp only [update_configuration_files_base, files_to_update, List.foldl]
    have h3 : readFile (processConfigFile (processConfigFile (processConfigFile fs
        ("fly.toml", update_flytoml project_name))
        ("docker-compose.yml", update_composeyml project_name))
        ("Dockerfile", update_dockerfile project_name)) "README.md"
        = some (FileData.text c) :=
      step _ ("Dockerfile", update_dockerfile project_name) (by intro hh; simp at hh)
        (step _ ("docker-compose.yml", update_composeyml project_name) (by intro hh; simp at hh)
          (step _ ("fly.toml", update_flytoml project_name) (by intro hh; simp at hh) hread))
    exact processConfigFile_self _ ("README.md", update_readme project_name) c h3
  · intro project_name fs q c hq hread
    rw [update_python_files, readFile_mapEntries, hread]
    simp [hq]
  · intro project_name fs q c hq hread
    rw [update_template_files, readFile_mapEntries, hread]
    simp [hq, templateFileUpdate]

/-- C8 (witness): an undecodable `fly.toml` survives the whole pass
unmodified; a readable `README.md`, a Python file and a template are still
rewritten. -/
theorem C8_witness :
    readFile (update_configuration_files "MyApp" none id
        [("fly.toml", FileData.undecodable)]) "fly.toml" = some FileData.undecodable ∧
    readFile (update_configuration_files_base "MyApp"
        [("README.md", FileData.text "# Flask2Fly")]) "README.md"
      = some (FileData.text (update_readme "MyApp" "# Flask2Fly")) ∧
    readFile (update_python_files "MyApp"
        [("src/main.py", FileData.text "import app_name")]) "src/main.py"
      = some (pyFileUpdate "MyApp" (FileData.text "import app_name")) ∧
    readFile (update_template_files "MyApp"
        [("src/MyApp/templates/index.html", FileData.text "<p>Flask2Fly</p>")])
        "src/MyApp/templates/index.html"
      = some (FileData.text (update_template_content "MyApp" "<p>Flask2Fly</p>")) :=
  ⟨C8_decode_errors_nonfatal.1 "MyApp" none id [("fly.toml", FileData.undecodable)]
      "fly.toml" rfl,
   C8_decode_errors_nonfatal.2.1 "MyApp" [("README.md", FileData.text "# Flask2Fly")]
      "# Flask2Fly" rfl,
   C8_decode_errors_nonfatal.2.2.1 "MyApp" [("src/main.py", FileData.text "import app_name")]
      "src/main.py" "import app_name" (by decide) rfl,
   C8_decode_errors_nonfatal.2.2.2 "MyApp"
      [("src/MyApp/templates/index.html", FileData.text "<p>Flask2Fly</p>")]
      "src/MyApp/templates/index.html" "<p>Flask2Fly</p>" (by decide) rfl⟩

/-- C5.  When the computed target path already exists, `main` terminates at
the existence check and the `git clone` step is never reached: no run with
an existing target contains a clone event, and a run with a valid name
stops exactly at the existence-check exit. -/
theorem C5_no_clone_when_target_exists (project_name : String)
    (tempCloneExists apiKeyPresent : Bool) :
    Event.gitClone ∉ main_events true project_name true tempCloneExists apiKeyPresent ∧
    (validate_inputs project_name = true →
      main_events true project_name true tempCloneExists apiKeyPresent
        = [Event.promptDescription, Event.exitTargetExists]) := by
  constructor
  · cases hv : validate_inputs project_name <;> simp [main_events, hv]
  · intro hv
    simp [main_events, hv]

/-- C5 (witness): target directory exists for project `MyApp`. -/
theorem C5_witness :
    Event.gitClone ∉ main_events true "MyApp" true false true ∧
    main_events true "MyApp" true false true
      = [Event.promptDescription, Event.exitTargetExists] :=
  ⟨(C5_no_clone_when_target_exists "MyApp" false true).1,
   (C5_no_clone_when_target_exists "MyApp" false true).2 (by decide)⟩

lemma pyReadlinesAux_flatten : ∀ (l acc : List Char),
    (pyReadlinesAux l acc).flatten = acc.reverse ++ l := by
  intro l
  induction l with
  | nil =>
    intro acc
    by_cases h : acc.isEmpty
    · simp [pyReadlinesAux, h, List.isEmpty_iff.mp h]
    · simp [pyReadlinesAux, h]
  | cons c rest ih =>
    intro acc
    by_cases hc : c = '\n'
    · subst hc
      simp [pyReadlinesAux, ih]
    · simp [pyReadlinesAux, hc, ih (c :: acc)]

lemma readlinesL_flatten (l : List Char) : (readlinesL l).flatten = l := by
  simpa using pyReadlinesAux_flatten l []

lemma pyReadlinesAux_nlfree : ∀ (m k acc : List Char), (∀ c ∈ m, c ≠ '\n') →
    pyReadlinesAux (m ++ k) acc = pyReadlinesAux k (m.reverse ++ acc) := by
  intro m
  induction m with
  | nil => intro k acc _; simp
  | cons c m2 ih =>
    intro k acc hm
    have hc : c ≠ '\n' := hm c (List.mem_cons_self _ _)
    simp only [List.cons_append, pyReadlinesAux, if_neg hc]
    show pyReadlinesAux (m2 ++ k) (c :: acc) = pyReadlinesAux k ((c :: m2).reverse ++ acc)
    rw [ih k (c :: acc) (fun d hd => hm d (List.mem_cons_of_mem c hd))]
    congr 1
    simp

lemma isLine_iff {l : List Char} :
    isLine l = true ↔ l ≠ [] ∧ ∀ c ∈ l.dropLast, c ≠ '\n' := by
  simp [isLine, List.isEmpty_iff, List.all_eq_true]

lemma readlinesL_single {x : List Char} (h : isLine x = true) : readlinesL x = [x] := by
  rcases isLine_iff.mp h with ⟨hne, hdrop⟩
  by_cases hc : x.getLast hne = '\n'
  · have hx : x.dropLast ++ ['\n'] = x := by
      have h1 := List.dropLast_append_getLast hne
      rw [hc] at h1
      exact h1
    conv_lhs => rw [← hx]
    unfold readlinesL
    rw [pyReadlinesAux_nlfree x.dropLast ['\n'] [] hdrop]
    simp [pyReadlinesAux, hx]
  · have hall : ∀ d ∈ x, d ≠ '\n' := by
      intro d hd
      have hx := List.dropLast_append_getLast hne
      rw [← hx] at hd
      rcases List.mem_append.mp hd with h1 | h1
      · exact hdrop d h1
      · have hdl : d = x.getLast hne := by simpa using h1
        rw [hdl]
        exact hc
    unfold readlinesL
    have hrw := pyReadlinesAux_nlfree x [] [] hall
    simp only [List.append_nil] at hrw
    rw [hrw]
    simp [pyReadlinesAux, List.isEmpty_iff, hne]

lemma pyReadlinesAux_isLine : ∀ (l acc : List Char), (∀ c ∈ acc, c ≠ '\n') →
    ∀ x ∈ pyReadlinesAux l acc, isLine x = true := by
  intro l
  induction l with
  | nil =>
    intro acc hacc x hx
    by_cases h : acc.isEmpty
    · simp [pyReadlinesAux, h] at hx
    · simp only [pyReadlinesAux, if_neg h] at hx
      rw [List.mem_singleton] at hx
      subst hx
      rw [isLine_iff]
      constructor
      · simp only [List.isEmpty_iff] at h
        simpa using h
      · intro c hcm
        exact hacc c (by simpa using List.mem_of_mem_dropLast hcm)
  | cons c rest ih =>
    intro acc hacc x hx
    by_cases hc : c = '\n'
    · subst hc
      rw [show pyReadlinesAux ('\n' :: rest) acc
          = (acc.reverse ++ ['\n']) :: pyReadlinesAux rest [] from by
        simp [pyReadlinesAux]] at hx
      rcases List.mem_cons.mp hx with h1 | h1
      · subst h1
        rw [isLine_iff]
        refine ⟨by simp, ?_⟩
        intro d hd
        rw [List.dropLast_concat] at hd
        exact hacc d (by simpa using hd)
      · exact ih [] (by simp) x h1
    · simp only [pyReadlinesAux, if_neg hc] at hx
      refine ih (c :: acc) ?_ x hx
      intro d hd
      rcases List.mem_cons.mp hd with h1 | h1
      · rw [h1]; exact hc
      · exact hacc d h1

lemma pyReadlinesAux_interior_nl : ∀ (l acc : List Char) (j : Nat) (x : List Char),
    j + 1 < (pyReadlinesAux l acc).length → (pyReadlinesAux l acc)[j]? = some x →
    x.getLast? = some '\n' := by
  intro l
  induction l with
  | nil =>
    intro acc j x hj hx
    exfalso
    simp only [pyReadlinesAux] at hj
    by_cases h : acc.isEmpty
    · rw [if_pos h] at hj
      simp at hj
    · rw [if_neg h] at hj
      simp only [List.length_singleton] at hj
      omega
  | cons c rest ih =>
    intro acc j x hj hx
    by_cases hc : c = '\n'
    · subst hc
      rw [show pyReadlinesAux ('\n' :: rest) acc
          = (acc.reverse ++ ['\n']) :: pyReadlinesAux rest [] from by
        simp [pyReadlinesAux]] at hj hx
      cases j with
      | zero =>
        simp only [List.getElem?_cons_zero, Option.some_inj] at hx
        rw [← hx]
        exact List.getLast?_concat _
      | succ j2 =>
        rw [List.getElem?_cons_succ] at hx
        simp only [List.length_cons] at hj
        exact ih [] j2 x (by omega) hx
    · simp only [pyReadlinesAux, if_neg hc] at hj hx
      exact ih (c :: acc) j x hj hx

lemma pyReadlinesAux_last_nl : ∀ (l acc : List Char), l.getLast? = some '\n' →
    ∀ x ∈ pyReadlinesAux l acc, x.getLast? = some '\n' := by
  intro l
  induction l with
  | nil => intro acc h x hx; exact absurd h (by simp)
  | cons c rest ih =>
    intro acc h x hx
    by_cases hc : c = '\n'
    · subst hc
      rw [show pyReadlinesAux ('\n' :: rest) acc
          = (acc.reverse ++ ['\n']) :: pyReadlinesAux rest [] from by
        simp [pyReadlinesAux]] at hx
      rcases List.mem_cons.mp hx with h1 | h1
      · rw [h1]; exact List.getLast?_concat _
      · cases rest with
        | nil => simp [pyReadlinesAux] at h1
        | cons r rest2 =>
          rw [List.getLast?_cons_cons] at h
          exact ih [] h x h1
    · simp only [pyReadlinesAux, if_neg hc] at hx
      cases rest with
      | nil =>
        exfalso
        simp at h
        exact hc h
      | cons r rest2 =>
        rw [List.getLast?_cons_cons] at h
        exact ih (c :: acc) h x hx

lemma readlinesL_flatten_of_wf : ∀ (ls : List (List Char)),
    (∀ x ∈ ls, isLine x = true) →
    (∀ (j : Nat) (x : List Char), j + 1 < ls.length → ls[j]? = some x →
      x.getLast? = some '\n') →
    readlinesL ls.flatten = ls := by
  intro ls
  induction ls with
  | nil => intro _ _; rfl
  | cons x rest ih =>
    intro h1 h2
    have hx : isLine x = true := h1 x (List.mem_cons_self _ _)
    rcases isLine_iff.mp hx with ⟨hne, hdrop⟩
    cases rest with
    | nil =>
      show readlinesL ([x].flatten) = [x]
      rw [show ([x] : List (List Char)).flatten = x by simp]
      exact readlinesL_single hx
    | cons y rest2 =>
      have hxnl : x.getLast? = some '\n' := h2 0 x (by simp) (by simp)
      have hxeq : x.dropLast ++ ['\n'] = x := by
        have e1 := List.dropLast_append_getLast hne
        have e2 : x.getLast hne = '\n' := by
          rw [List.getLast?_eq_getLast x hne] at hxnl
          exact Option.some_inj.mp hxnl
        rw [e2] at e1
        exact e1
      have hflat : (x :: y :: rest2).flatten
          = x.dropLast ++ ('\n' :: (y :: rest2).flatten) := by
        rw [List.flatten_cons]
        conv_lhs => rw [← hxeq]
        simp
      rw [hflat]
      unfold readlinesL
      rw [pyReadlinesAux_nlfree x.dropLast ('\n' :: (y :: rest2).flatten) [] hdrop]
      simp only [pyReadlinesAux, if_pos rfl]
      have htail : pyReadlinesAux ((y :: rest2).flatten) [] = y :: rest2 :=
        ih (fun z hz => h1 z (List.mem_cons_of_mem _ hz))
          (fun j z hj hz =>
            h2 (j + 1) z (by simpa using Nat.succ_lt_succ hj)
              (by simpa using hz))
      rw [htail]
      simpa using hxeq

lemma secretLine_isLine (secret_key : String)
    (hkey : ∀ c ∈ secret_key.data, c ≠ '\n') :
    isLine (secretLine secret_key) = true := by
  rw [isLine_iff]
  constructor
  · simp [secretLine]
  · intro c hc
    rw [secretLine, List.dropLast_concat] at hc
    rcases List.mem_append.mp hc with h1 | h1
    · intro he
      subst he
      revert h1
      decide
    · exact hkey c h1

lemma secretLine_last_nl (secret_key : String) :
    (secretLine secret_key).getLast? = some '\n' := by
  rw [secretLine]
  exact List.getLast?_concat _

/-- C10 (counterexample).  On an existing `.env` whose last line has no
trailing newline and contains no secret-key line, `update_env_file` glues
the new key onto that last line: the original line `FOO=1` is not preserved
as a line, and the result contains **no** line starting with
`FLASK_SECRET_KEY=` — refuting both the "preserves every line" and the
"appends exactly one such line" parts of the claim. -/
theorem C10_counterexample :
    readlinesL (update_env_file "K" (some "FOO=1")).data
      = ["FOO=1FLASK_SECRET_KEY=K\n".data] ∧
    ∀ x ∈ readlinesL (update_env_file "K" (some "FOO=1")).data,
      startsWithL "FLASK_SECRET_KEY=".data x = false := by
  constructor
  · rfl
  · decide

/-- C10 (amended).  For a newline-free generated key: when `.env` does not
exist it is created with exactly the one secret-key line; when it exists
and has a line starting with `FLASK_SECRET_KEY=`, the first such line is
replaced and every other line is preserved (the line list of the result is
the original line list with exactly index `i` replaced); when no such line
exists, `FLASK_SECRET_KEY=<key>\n` is appended to the end of the file,
which constitutes a new line exactly when the file is empty or ends with a
newline — otherwise it is glued onto the final unterminated line. -/
theorem C10_env_update_characterization (secret_key : String)
    (hkey : ∀ c ∈ secret_key.data, c ≠ '\n') :
    (update_env_file secret_key none = String.mk (secretLine secret_key) ∧
      readlinesL (update_env_file secret_key none).data = [secretLine secret_key]) ∧
    (∀ (content : String) (i : Nat),
      (readlinesL content.data).findIdx? (fun l => startsWithL "FLASK_SECRET_KEY=".data l)
        = some i →
      readlinesL (update_env_file secret_key (some content)).data
        = (readlinesL content.data).set i (secretLine secret_key)) ∧
    (∀ content : String,
      (readlinesL content.data).findIdx? (fun l => startsWithL "FLASK_SECRET_KEY=".data l)
        = none →
      (update_env_file secret_key (some content)).data = content.data ++ secretLine secret_key ∧
      (content.data = [] ∨ content.data.getLast? = some '\n' →
        readlinesL (update_env_file secret_key (some content)).data
          = readlinesL content.data ++ [secretLine secret_key])) := by
  refine ⟨⟨rfl, readlinesL_single (secretLine_isLine secret_key hkey)⟩, ?_, ?_⟩
  · intro content i hfind
    simp only [update_env_file, hfind]
    apply readlinesL_flatten_of_wf
    · intro x hx
      rcases List.mem_or_eq_of_mem_set hx with h1 | h1
      · exact pyReadlinesAux_isLine content.data [] (by simp) x h1
      · rw [h1]
        exact secretLine_isLine secret_key hkey
    · intro j x hj hx
      rw [List.getElem?_set] at hx
      by_cases hij : i = j
      · rw [if_pos hij] at hx
        by_cases hlen : i < (readlinesL content.data).length
        · rw [if_pos hlen] at hx
          rw [← Option.some_inj.mp hx]
          exact secretLine_last_nl secret_key
        · rw [if_neg hlen] at hx
          exact Option.noConfusion hx
      · rw [if_neg hij] at hx
        rw [List.length_set] at hj
        exact pyReadlinesAux_interior_nl content.data [] j x hj hx
  · intro content hfind
    constructor
    · simp only [update_env_file, hfind]
      show (readlinesL content.data ++ [secretLine secret_key]).flatten
          = content.data ++ secretLine secret_key
      rw [List.flatten_append, readlinesL_flatten]
      simp
    · intro hend
      simp only [update_env_file, hfind]
      apply readlinesL_flatten_of_wf
      · intro x hx
        rcases List.mem_append.mp hx with h1 | h1
        · exact pyReadlinesAux_isLine content.data [] (by simp) x h1
        · rw [List.mem_singleton.mp h1]
          exact secretLine_isLine secret_key hkey
      · intro j x hj hx
        rw [List.getElem?_append] at hx
        by_cases hjl : j < (readlinesL content.data).length
        · rw [if_pos hjl] at hx
          have hmem : x ∈ readlinesL content.data := by
            rcases List.getElem?_eq_some.mp hx with ⟨hb, hg⟩
            rw [← hg]
            exact List.getElem_mem hb
          rcases hend with hnil | hnl
          · exfalso
            rw [hnil] at hjl
            simp [readlinesL, pyReadlinesAux] at hjl
          · exact pyReadlinesAux_last_nl content.data [] hnl x hmem
        · exfalso
          simp only [List.length_append, List.length_singleton] at hj
          omega

/-- C10 (witness): replacement of an existing key line, and appending to a
newline-terminated file. -/
theorem C10_witness :
    readlinesL (update_env_file "abc" (some "A=1\nFLASK_SECRET_KEY=x\nB=2\n")).data
      = (readlinesL ("A=1\nFLASK_SECRET_KEY=x\nB=2\n").data).set 1 (secretLine "abc") ∧
    (update_env_file "abc" (some "A=1\n")).data = ("A=1\n").data ++ secretLine "abc" ∧
    readlinesL (update_env_file "abc" (some "A=1\n")).data
      = readlinesL ("A=1\n").data ++ [secretLine "abc"] :=
  ⟨(C10_env_update_characterization "abc" (by decide)).2.1
      "A=1\nFLASK_SECRET_KEY=x\nB=2\n" 1 (by decide),
   ((C10_env_update_characterization "abc" (by decide)).2.2 "A=1\n" (by decide)).1,
   ((C10_env_update_characterization "abc" (by decide)).2.2 "A=1\n" (by decide)).2
     (Or.inr rfl)⟩

/-! ### C3: brand removal and idempotence of the configuration rewrite -/

lemma readme_eval (n : String) :
    update_readme n README_src
      = String.mk ("# ".data ++ (n.data ++ ("\nThe ".data ++ (n.data ++ " repo.\n".data)))) := rfl

lemma readme_no_brand (n : String) (hn : ¬ occursP "Flask2Fly".data n.data) :
    ¬ occursP "Flask2Fly".data
      ("# ".data ++ (n.data ++ ("\nThe ".data ++ (n.data ++ " repo.\n".data)))) := by
  intro h
  have h1 := occurs_shift_concrete "# ".data h (by decide)
    (show ("# ".data : List Char).getLast? = some ' ' from rfl) (by decide)
  have h2 := occurs_shift_hole n.data h1 hn
    (show ("\nThe ".data ++ (n.data ++ " repo.\n".data)).head? = some '\n' from rfl) (by decide)
  have h3 := occurs_shift_concrete "\nThe ".data h2 (by decide)
    (show ("\nThe ".data : List Char).getLast? = some ' ' from rfl) (by decide)
  have h4 := occurs_shift_hole n.data h3 hn
    (show (" repo.\n".data : List Char).head? = some ' ' from rfl) (by decide)
  exact not_occursP_of_containsL (by decide) h4

lemma occursP_length_le {pat l : List Char} (h : occursP pat l) : pat.length ≤ l.length := by
  rcases h with ⟨a, b, rfl⟩
  simp only [List.length_append]
  omega

lemma occursP_subset {pat l : List Char} (h : occursP pat l) : pat ⊆ l := by
  rcases h with ⟨a, b, rfl⟩
  intro c hc
  simp [hc]

lemma matchesPattern_chars {l : List Char} (h : matchesPattern l = true) :
    l ≠ [] ∧ ∀ c ∈ l, isNameCharB c = true := by
  cases l with
  | nil => simp [matchesPattern] at h
  | cons c rest =>
    simp only [matchesPattern, Bool.and_eq_true, List.all_eq_true] at h
    refine ⟨by simp, ?_⟩
    intro d hd
    rcases List.mem_cons.mp hd with h1 | h1
    · rw [h1]
      simp [isNameCharB, h.1]
    · exact h.2 d h1

lemma nameChar_ne_of {c : Char} (d : Char) (h : isNameCharB c = true)
    (hd : isNameCharB d = false) : c ≠ d := by
  intro he
  rw [he] at h
  rw [h] at hd
  exact Bool.noConfusion hd

lemma replaceAll_append_headsafe (pat rep : List Char) :
    ∀ (x y : List Char), pat ≠ [] → (∀ c ∈ x, pat.head? ≠ some c) →
      replaceAll pat rep (x ++ y) = x ++ replaceAll pat rep y := by
  intro x y hne hx
  apply replaceAll_append_skip pat rep x y
  intro i hi
  cases pat with
  | nil => exact absurd rfl hne
  | cons p pt =>
    have hmem : x[i] ∈ x := List.getElem_mem hi
    have hne2 : (p == x[i]) = false := by
      have hx2 := hx _ hmem
      simp only [List.head?] at hx2
      simp only [beq_eq_false_iff_ne]
      intro he
      exact hx2 (by rw [he])
    rw [List.drop_eq_getElem_cons hi, List.cons_append]
    simp [startsWithL, hne2]

lemma splitOnNl_cons_nl (y : List Char) : splitOnNl ('\n' :: y) = [] :: splitOnNl y := by
  simp [splitOnNl]

lemma splitOnNl_append_nlfree : ∀ (m : List Char) {y h : List Char} {t : List (List Char)},
    (∀ c ∈ m, c ≠ '\n') → splitOnNl y = h :: t → splitOnNl (m ++ y) = (m ++ h) :: t := by
  intro m
  induction m with
  | nil => intro y h t _ hy; simpa using hy
  | cons c m2 ih =>
    intro y h t hm hy
    have hc : c ≠ '\n' := hm c (List.mem_cons_self _ _)
    have ih2 := ih (fun d hd => hm d (List.mem_cons_of_mem c hd)) hy
    rw [List.cons_append]
    rw [show splitOnNl (c :: (m2 ++ y))
        = (match splitOnNl (m2 ++ y) with
           | [] => [[c]]
           | h2 :: t2 => (c :: h2) :: t2) from by
      simp [splitOnNl, hc]]
    rw [ih2]
    rfl

lemma identRunLen_append_stop (m : List Char) (d : Char) (y : List Char)
    (hm : ∀ c ∈ m, isNameCharB c = true) (hd : isNameCharB d = false) :
    identRunLen (m ++ (d :: y)) = m.length := by
  induction m with
  | nil => simp [identRunLen, hd]
  | cons c m2 ih =>
    have hc : isNameCharB c = true := hm c (List.mem_cons_self _ _)
    have ih2 := ih (fun e he => hm e (List.mem_cons_of_mem c he))
    simp [identRunLen, hc, ih2]

lemma readme_idem (n : String) (hn : ¬ occursP "Flask2Fly".data n.data) :
    update_readme n (update_readme n README_src) = update_readme n README_src := by
  rw [readme_eval n]
  unfold update_readme pyReplace
  congr 1
  exact replaceAll_of_not_occursP _ _ _ (readme_no_brand n hn)

lemma fly_eval (n : String) :
    update_flytoml n FLY_src
      = String.mk ("app = '".data ++ (n.data ++ "'\nprimary_region = 'iad'\n".data)) := by
  rw [show update_flytoml n FLY_src
      = String.mk ("app = '".data ++ ((n.data ++ "'".data)
          ++ ('\n' :: ("primary_region = 'iad'".data ++ ['\n'])))) from rfl]
  congr 1
  simp

lemma fly_no_brand (n : String) (hn : ¬ occursP "Flask2Fly".data n.data) :
    ¬ occursP "Flask2Fly".data
      ("app = '".data ++ (n.data ++ "'\nprimary_region = 'iad'\n".data)) := by
  intro h
  have s1 := occurs_shift_concrete "app = '".data h (by decide)
    (show ("app = '".data : List Char).getLast? = some '\'' from rfl) (by decide)
  have s2 := occurs_shift_hole n.data s1 hn
    (show ("'\nprimary_region = 'iad'\n".data : List Char).head? = some '\'' from rfl)
    (by decide)
  exact not_occursP_of_containsL (by decide) s2

lemma fly_idem (n : String) (hnl : ∀ c ∈ n.data, c ≠ '\n') :
    update_flytoml n
        (String.mk ("app = '".data ++ (n.data ++ "'\nprimary_region = 'iad'\n".data)))
      = String.mk ("app = '".data ++ (n.data ++ "'\nprimary_region = 'iad'\n".data)) := by
  have hs2 : splitOnNl (n.data ++ "'\nprimary_region = 'iad'\n".data)
      = (n.data ++ "'".data) :: ["primary_region = 'iad'".data, []] :=
    splitOnNl_append_nlfree n.data hnl rfl
  have hs3 : splitOnNl ("app = '".data ++ (n.data ++ "'\nprimary_region = 'iad'\n".data))
      = ("app = '".data ++ (n.data ++ "'".data)) :: ["primary_region = 'iad'".data, []] := by
    rw [splitOnNl_append_nlfree "app = '".data (by decide) hs2]
  have hstarts : startsWithL "app = ".data ("app = '".data ++ (n.data ++ "'".data)) = true :=
    (startsWithL_iff _ _).mpr (List.IsPrefix.trans ⟨"'".data, rfl⟩ (List.prefix_append _ _))
  unfold update_flytoml
  congr 1
  rw [show (String.mk ("app = '".data ++ (n.data ++ "'\nprimary_region = 'iad'\n".data))).data
      = "app = '".data ++ (n.data ++ "'\nprimary_region = 'iad'\n".data) from rfl]
  rw [hs3]
  simp only [List.map]
  rw [show flyLineSub n ("app = '".data ++ (n.data ++ "'".data))
      = "app = '".data ++ n.data ++ "'".data from by
    unfold flyLineSub
    rw [if_pos hstarts]]
  rw [show flyLineSub n ("primary_region = 'iad'".data) = "primary_region = 'iad'".data from by
    unfold flyLineSub
    rw [if_neg (by decide)]]
  rw [show flyLineSub n ([] : List Char) = [] from rfl]
  simp [joinNl]

lemma compose_eval (n : String) :
    update_composeyml n COMPOSE_src
      = String.mk ("services:\n  ".data ++ (n.data ++ ":\n    build: .\n".data)) := by
  rw [show update_composeyml n COMPOSE_src
      = String.mk ("services:".data ++ ('\n' :: ((("  ".data ++ n.data) ++ (':' :: []))
          ++ ('\n' :: ("    build: .".data ++ ('\n' :: ([] : List Char))))))) from rfl]
  congr 1
  simp

lemma compose_no_brand (n : String) (hn : ¬ occursP "Flask2Fly".data n.data) :
    ¬ occursP "Flask2Fly".data
      ("services:\n  ".data ++ (n.data ++ ":\n    build: .\n".data)) := by
  intro h
  have s1 := occurs_shift_concrete "services:\n  ".data h (by decide)
    (show ("services:\n  ".data : List Char).getLast? = some ' ' from rfl) (by decide)
  have s2 := occurs_shift_hole n.data s1 hn
    (show (":\n    build: .\n".data : List Char).head? = some ':' from rfl) (by decide)
  exact not_occursP_of_containsL (by decide) s2

lemma compose_idem (n : String) (hnl : ∀ c ∈ n.data, c ≠ '\n')
    (hchars : ∀ c ∈ n.data, isNameCharB c = true) :
    update_composeyml n
        (String.mk ("services:\n  ".data ++ (n.data ++ ":\n    build: .\n".data)))
      = String.mk ("services:\n  ".data ++ (n.data ++ ":\n    build: .\n".data)) := by
  have hsB : splitOnNl (n.data ++ ":\n    build: .\n".data)
      = (n.data ++ ":".data) :: ["    build: .".data, []] :=
    splitOnNl_append_nlfree n.data hnl rfl
  have hsC : splitOnNl ("  ".data ++ (n.data ++ ":\n    build: .\n".data))
      = ("  ".data ++ (n.data ++ ":".data)) :: ["    build: .".data, []] :=
    splitOnNl_append_nlfree "  ".data (by decide) hsB
  have hsD : splitOnNl ('\n' :: ("  ".data ++ (n.data ++ ":\n    build: .\n".data)))
      = [] :: ("  ".data ++ (n.data ++ ":".data)) :: ["    build: .".data, []] := by
    rw [splitOnNl_cons_nl, hsC]
  have hsE : splitOnNl ("services:".data
        ++ ('\n' :: ("  ".data ++ (n.data ++ ":\n    build: .\n".data))))
      = "services:".data :: ("  ".data ++ (n.data ++ ":".data)) :: ["    build: .".data, []] := by
    rw [splitOnNl_append_nlfree "services:".data (by decide) hsD]
    simp
  have hline1 : composeLineSub n ("  ".data ++ (n.data ++ ":".data))
      = "  ".data ++ n.data ++ ':' :: [] := by
    have hst : startsWithL "  ".data ("  ".data ++ (n.data ++ ":".data)) = true :=
      (startsWithL_iff _ _).mpr (List.prefix_append _ _)
    unfold composeLineSub
    rw [if_pos hst]
    rw [show ("  ".data ++ (n.data ++ ":".data)).drop 2 = n.data ++ ":".data from rfl]
    rw [show (":".data : List Char) = ':' :: [] from rfl]
    rw [identRunLen_append_stop n.data ':' [] hchars (by decide)]
    rw [List.drop_left n.data (':' :: [])]
    rfl
  unfold update_composeyml
  congr 1
  rw [show (String.mk ("services:\n  ".data ++ (n.data ++ ":\n    build: .\n".data))).data
      = "services:".data ++ ('\n' :: ("  ".data ++ (n.data ++ ":\n    build: .\n".data)))
      from rfl]
  rw [hsE]
  simp only [List.map]
  rw [show composeLineSub n ("services:".data) = "services:".data from rfl]
  rw [hline1]
  rw [show composeLineSub n ("    build: .".data) = "    build: .".data from rfl]
  rw [show composeLineSub n ([] : List Char) = [] from rfl]
  simp [joinNl]

lemma pref_head {t y : List Char} {c : Char} (h : t <+: y) (htne : t ≠ [])
    (hy : y.head? = some c) : t.head? = some c := by
  rcases h with ⟨v, hv⟩
  cases t with
  | nil => exact absurd rfl htne
  | cons t0 ts =>
    rw [← hv] at hy
    simp only [List.cons_append, List.head?_cons] at hy
    simp only [List.head?_cons]
    exact hy

lemma docker_eval (n : String) :
    update_dockerfile n DOCKER_src
      = String.mk ("COPY src/".data ++ (n.data ++ "/static ./static\n".data)) := by
  rw [show update_dockerfile n DOCKER_src
      = String.mk ("COPY ".data ++ (("src/" ++ n ++ "/static").data ++ " ./static\n".data))
      from rfl]
  congr 1
  rw [String.data_append, String.data_append]
  simp only [List.append_assoc]
  rfl

lemma docker_no_brand (n : String) (hn : ¬ occursP "Flask2Fly".data n.data) :
    ¬ occursP "Flask2Fly".data
      ("COPY src/".data ++ (n.data ++ "/static ./static\n".data)) := by
  intro h
  have s1 := occurs_shift_concrete "COPY src/".data h (by decide)
    (show ("COPY src/".data : List Char).getLast? = some '/' from rfl) (by decide)
  have s2 := occurs_shift_hole n.data s1 hn
    (show ("/static ./static\n".data : List Char).head? = some '/' from rfl) (by decide)
  exact not_occursP_of_containsL (by decide) s2

lemma docker_no_pattern (n : String) (hchars : ∀ c ∈ n.data, isNameCharB c = true)
    (hne : n.data ≠ []) (happ : n ≠ "app_name") :
    ¬ occursP "src/app_name/static".data
      ("COPY src/".data ++ (n.data ++ "/static ./static\n".data)) := by
  have hslash : ∀ c ∈ n.data, c ≠ '/' :=
    fun c hc => nameChar_ne_of '/' (hchars c hc) (by decide)
  intro h0
  have h : occursP "src/app_name/static".data
      ("COPY ".data ++ ("src/".data ++ (n.data ++ "/static ./static\n".data))) := h0
  have h1 := occurs_shift_concrete "COPY ".data h (by decide)
    (show ("COPY ".data : List Char).getLast? = some ' ' from rfl) (by decide)
  rcases occursP_append "src/".data h1 with hA | hB | hC
  · have hlen := occursP_length_le hA
    exact absurd hlen (by decide)
  · rcases occursP_append n.data hB with hB1 | hB2 | hB3
    · exact hslash '/' (occursP_subset hB1 (by decide)) rfl
    · exact not_occursP_of_containsL (by decide) hB2
    · rcases hB3 with ⟨s, t, hst, hsne, htne, hsn, htw⟩
      have htsuf : t <:+ "src/app_name/static".data := ⟨s, hst.symm⟩
      have htlen1 : 0 < t.length := List.length_pos.mpr htne
      have htlen2 : t.length ≤ 17 := by
        have hh := htw.length_le
        rw [show (("/static ./static\n".data : List Char)).length = 17 from rfl] at hh
        exact hh
      have hteq := List.suffix_iff_eq_drop.mp htsuf
      rw [show ("src/app_name/static".data : List Char).length = 19 from rfl] at hteq
      have hthead : t.head? = some '/' :=
        pref_head htw htne (show ("/static ./static\n".data : List Char).head? = some '/' from rfl)
      obtain ⟨k, hk⟩ : ∃ k, t.length = k := ⟨t.length, rfl⟩
      rw [hk] at hteq htlen1 htlen2
      interval_cases k
      · rw [hteq] at hthead; exact absurd hthead (by decide)
      · rw [hteq] at hthead; exact absurd hthead (by decide)
      · rw [hteq] at hthead; exact absurd hthead (by decide)
      · rw [hteq] at hthead; exact absurd hthead (by decide)
      · rw [hteq] at hthead; exact absurd hthead (by decide)
      · rw [hteq] at hthead; exact absurd hthead (by decide)
      · -- t.length = 7 : t = "/static", hence s = "src/app_name" lives inside n
        rw [hteq] at hst
        have hcat : s ++ List.drop (19 - 7) "src/app_name/static".data
            = "src/app_name".data ++ List.drop (19 - 7) "src/app_name/static".data := by
          rw [← hst]
          rfl
        have hs_eq : s = "src/app_name".data := List.append_cancel_right hcat
        rw [hs_eq] at hsn
        exact hslash '/' (hsn.subset (by decide)) rfl
      · rw [hteq] at hthead; exact absurd hthead (by decide)
      · rw [hteq] at hthead; exact absurd hthead (by decide)
      · rw [hteq] at hthead; exact absurd hthead (by decide)
      · rw [hteq] at hthead; exact absurd hthead (by decide)
      · rw [hteq] at hthead; exact absurd hthead (by decide)
      · rw [hteq] at hthead; exact absurd hthead (by decide)
      · rw [hteq] at hthead; exact absurd hthead (by decide)
      · rw [hteq] at hthead; exact absurd hthead (by decide)
      · -- t.length = 16 : t = "/app_name/static" is no prefix of the tail
        rw [hteq] at htw
        exact absurd htw (by decide)
      · rw [hteq] at hthead; exact absurd hthead (by decide)
  · rcases hC with ⟨s, t, hst, hsne, htne, hs4, htnw⟩
    have hspre : s <+: "src/app_name/static".data := ⟨t, hst.symm⟩
    have hslen1 : 0 < s.length := List.length_pos.mpr hsne
    have hslen2 : s.length ≤ 4 := by
      have hh := hs4.length_le
      rw [show (("src/".data : List Char)).length = 4 from rfl] at hh
      exact hh
    have hseq := List.suffix_iff_eq_drop.mp hs4
    rw [show ("src/".data : List Char).length = 4 from rfl] at hseq
    obtain ⟨k, hk⟩ : ∃ k, s.length = k := ⟨s.length, rfl⟩
    rw [hk] at hseq hslen1 hslen2
    interval_cases k
    · rw [hseq] at hspre; exact absurd hspre (by decide)
    · rw [hseq] at hspre; exact absurd hspre (by decide)
    · rw [hseq] at hspre; exact absurd hspre (by decide)
    · -- s.length = 4 : s = "src/", so t = "app_name/static" starts the hole
      rw [hseq] at hst
      have ht_eq : t = "app_name/static".data := by
        have hcat : ("src/".data : List Char) ++ "app_name/static".data
            = "src/".data ++ t := by
          rw [show (("src/".data : List Char) ++ "app_name/static".data)
              = "src/app_name/static".data from rfl, hst]
          rfl
        exact (List.append_cancel_left hcat).symm
      rw [ht_eq] at htnw
      rcases pref_split n.data htnw with hP1 | ⟨u, hu, huw⟩
      · exact hslash '/' (hP1.subset (by decide)) rfl
      · have hnpref : n.data <+: "app_name/static".data := ⟨u, hu.symm⟩
        have hnd := List.prefix_iff_eq_take.mp hnpref
        by_cases hm9 : 9 ≤ n.data.length
        · have h9 : ("app_name/".data : List Char) <+: n.data := by
            rw [hnd]
            have h10 := List.take_prefix 9 (List.take n.data.length "app_name/static".data)
            rw [List.take_take] at h10
            rw [show min 9 n.data.length = 9 from by omega] at h10
            rw [show (List.take 9 "app_name/static".data : List Char)
                = "app_name/".data from rfl] at h10
            exact h10
          exact hslash '/' (h9.subset (by decide)) rfl
        · push_neg at hm9
          have hu2 : u = List.drop n.data.length "app_name/static".data := by
            rw [hu, List.drop_left]
          have hlen1 : 0 < n.data.length := List.length_pos.mpr hne
          obtain ⟨m, hm⟩ : ∃ m, n.data.length = m := ⟨n.data.length, rfl⟩
          rw [hm] at hu2 hnd hm9 hlen1
          have hm8 : m ≤ 8 := by omega
          interval_cases m
          · rw [hu2] at huw; exact absurd huw (by decide)
          · rw [hu2] at huw; exact absurd huw (by decide)
          · rw [hu2] at huw; exact absurd huw (by decide)
          · rw [hu2] at huw; exact absurd huw (by decide)
          · rw [hu2] at huw; exact absurd huw (by decide)
          · rw [hu2] at huw; exact absurd huw (by decide)
          · rw [hu2] at huw; exact absurd huw (by decide)
          · -- n.data.length = 8 forces n = "app_name", contradicting happ
            exact happ (String.ext (by rw [hnd]; rfl))

lemma docker_idem (n : String) (hchars : ∀ c ∈ n.data, isNameCharB c = true)
    (hne : n.data ≠ []) :
    update_dockerfile n
      (String.mk ("COPY src/".data ++ (n.data ++ "/static ./static\n".data)))
      = String.mk ("COPY src/".data ++ (n.data ++ "/static ./static\n".data)) := by
  by_cases happ : n = "app_name"
  · subst happ
    rfl
  · unfold update_dockerfile pyReplace
    congr 1
    exact replaceAll_of_not_occursP "src/app_name/static".data
      ("src/" ++ n ++ "/static").data _ (docker_no_pattern n hchars hne happ)

lemma not_occursP_logo {l : List Char} (h : ¬ occursP "flask2fly".data l) :
    ¬ occursP "flask2fly logo".data l := by
  intro hx
  have hx2 : occursP ([] ++ "flask2fly".data ++ " logo".data) l := hx
  exact h (occursP_of_occursP_extend [] " logo".data hx2)

lemma template_no_occurs (pat : List Char) (n : String)
    (hseg1 : containsL pat "<p>".data = false)
    (hseg2 : containsL pat "</p>\n<p>".data = false)
    (hseg3 : containsL pat "</p>\n".data = false)
    (hgt : '>' ∉ pat) (hlt : '<' ∉ pat)
    (hn : ¬ occursP pat n.data)
    (hl : ¬ occursP pat (pyLower n).data)
    (hu : ¬ occursP pat (pyUpper n).data) :
    ¬ occursP pat
      ("<p>".data ++ (n.data ++ ("</p>\n<p>".data ++ ((pyLower n).data
        ++ ("</p>\n<p>".data ++ ((pyUpper n).data ++ "</p>\n".data)))))) := by
  intro h
  have s1 := occurs_shift_concrete "<p>".data h hseg1
    (show ("<p>".data : List Char).getLast? = some '>' from rfl) hgt
  have s2 := occurs_shift_hole n.data s1 hn
    (show (("</p>\n<p>".data ++ ((pyLower n).data
      ++ ("</p>\n<p>".data ++ ((pyUpper n).data ++ "</p>\n".data))))).head? = some '<' from rfl)
    hlt
  have s3 := occurs_shift_concrete "</p>\n<p>".data s2 hseg2
    (show ("</p>\n<p>".data : List Char).getLast? = some '>' from rfl) hgt
  have s4 := occurs_shift_hole (pyLower n).data s3 hl
    (show (("</p>\n<p>".data ++ ((pyUpper n).data ++ "</p>\n".data))).head? = some '<' from rfl)
    hlt
  have s5 := occurs_shift_concrete "</p>\n<p>".data s4 hseg2
    (show ("</p>\n<p>".data : List Char).getLast? = some '>' from rfl) hgt
  have s6 := occurs_shift_hole (pyUpper n).data s5 hu
    (show ("</p>\n".data : List Char).head? = some '<' from rfl) hlt
  exact not_occursP_of_containsL hseg3 s6

lemma template_eval (n : String)
    (h2 : ¬ occursP "flask2fly".data n.data)
    (h3 : ¬ occursP "FLASK2FLY".data n.data)
    (h2l : ¬ occursP "flask2fly".data (pyLower n).data)
    (h3l : ¬ occursP "FLASK2FLY".data (pyLower n).data)
    (h2u : ¬ occursP "flask2fly".data (pyUpper n).data) :
    update_template_content n TEMPLATE_src
      = String.mk ("<p>".data ++ (n.data ++ ("</p>\n<p>".data ++ ((pyLower n).data
          ++ ("</p>\n<p>".data ++ ((pyUpper n).data ++ "</p>\n".data)))))) := by
  have e1 : pyReplace TEMPLATE_src "Flask2Fly" n
      = String.mk ("<p>".data
          ++ (n.data ++ "</p>\n<p>flask2fly</p>\n<p>FLASK2FLY</p>\n".data)) := rfl
  have e2 : pyReplace
      (String.mk ("<p>".data
        ++ (n.data ++ "</p>\n<p>flask2fly</p>\n<p>FLASK2FLY</p>\n".data)))
      "flask2fly" (pyLower n)
      = String.mk ("<p>".data ++ (n.data ++ ("</p>\n<p>".data ++ ((pyLower n).data
          ++ "</p>\n<p>FLASK2FLY</p>\n".data)))) := by
    unfold pyReplace
    congr 1
    show replaceAll "flask2fly".data (pyLower n).data
        ("<p>".data ++ (n.data ++ "</p>\n<p>flask2fly</p>\n<p>FLASK2FLY</p>\n".data)) = _
    rw [replaceAll_append_headsafe "flask2fly".data (pyLower n).data "<p>".data
      (n.data ++ "</p>\n<p>flask2fly</p>\n<p>FLASK2FLY</p>\n".data) (by decide) (by decide)]
    rw [replaceAll_append_hole "flask2fly".data (pyLower n).data n.data
      "</p>\n<p>flask2fly</p>\n<p>FLASK2FLY</p>\n".data h2
      (show ("</p>\n<p>flask2fly</p>\n<p>FLASK2FLY</p>\n".data : List Char).head?
        = some '<' from rfl)
      (by decide)]
    rw [show replaceAll "flask2fly".data (pyLower n).data
        "</p>\n<p>flask2fly</p>\n<p>FLASK2FLY</p>\n".data
        = "</p>\n<p>".data ++ ((pyLower n).data ++ "</p>\n<p>FLASK2FLY</p>\n".data) from rfl]
  have e3 : pyReplace
      (String.mk ("<p>".data ++ (n.data ++ ("</p>\n<p>".data ++ ((pyLower n).data
        ++ "</p>\n<p>FLASK2FLY</p>\n".data)))))
      "FLASK2FLY" (pyUpper n)
      = String.mk ("<p>".data ++ (n.data ++ ("</p>\n<p>".data ++ ((pyLower n).data
          ++ ("</p>\n<p>".data ++ ((pyUpper n).data ++ "</p>\n".data)))))) := by
    unfold pyReplace
    congr 1
    show replaceAll "FLASK2FLY".data (pyUpper n).data
        ("<p>".data ++ (n.data ++ ("</p>\n<p>".data ++ ((pyLower n).data
          ++ "</p>\n<p>FLASK2FLY</p>\n".data)))) = _
    rw [replaceAll_append_headsafe "FLASK2FLY".data (pyUpper n).data "<p>".data
      (n.data ++ ("</p>\n<p>".data ++ ((pyLower n).data
        ++ "</p>\n<p>FLASK2FLY</p>\n".data))) (by decide) (by decide)]
    rw [replaceAll_append_hole "FLASK2FLY".data (pyUpper n).data n.data
      ("</p>\n<p>".data ++ ((pyLower n).data ++ "</p>\n<p>FLASK2FLY</p>\n".data)) h3
      (show (("</p>\n<p>".data ++ ((pyLower n).data
        ++ "</p>\n<p>FLASK2FLY</p>\n".data)) : List Char).head? = some '<' from rfl)
      (by decide)]
    rw [replaceAll_append_headsafe "FLASK2FLY".data (pyUpper n).data "</p>\n<p>".data
      ((pyLower n).data ++ "</p>\n<p>FLASK2FLY</p>\n".data) (by decide) (by decide)]
    rw [replaceAll_append_hole "FLASK2FLY".data (pyUpper n).data (pyLower n).data
      "</p>\n<p>FLASK2FLY</p>\n".data h3l
      (show ("</p>\n<p>FLASK2FLY</p>\n".data : List Char).head? = some '<' from rfl)
      (by decide)]
    rw [show replaceAll "FLASK2FLY".data (pyUpper n).data "</p>\n<p>FLASK2FLY</p>\n".data
        = "</p>\n<p>".data ++ ((pyUpper n).data ++ "</p>\n".data) from rfl]
  have e4 : pyReplace
      (String.mk ("<p>".data ++ (n.data ++ ("</p>\n<p>".data ++ ((pyLower n).data
        ++ ("</p>\n<p>".data ++ ((pyUpper n).data ++ "</p>\n".data)))))))
      "flask2fly logo" (pyLower n ++ " logo")
      = String.mk ("<p>".data ++ (n.data ++ ("</p>\n<p>".data ++ ((pyLower n).data
          ++ ("</p>\n<p>".data ++ ((pyUpper n).data ++ "</p>\n".data)))))) := by
    unfold pyReplace
    congr 1
    exact replaceAll_of_not_occursP _ _ _
      (template_no_occurs "flask2fly logo".data n (by decide) (by decide) (by decide)
        (by decide) (by decide) (not_occursP_logo h2) (not_occursP_logo h2l)
        (not_occursP_logo h2u))
  show pyReplace (pyReplace (pyReplace (pyReplace TEMPLATE_src "Flask2Fly" n)
      "flask2fly" (pyLower n)) "FLASK2FLY" (pyUpper n)) "flask2fly logo"
      (pyLower n ++ " logo") = _
  rw [e1, e2, e3, e4]

lemma template_idem (n : String)
    (h1 : ¬ occursP "Flask2Fly".data n.data)
    (h2 : ¬ occursP "flask2fly".data n.data)
    (h3 : ¬ occursP "FLASK2FLY".data n.data)
    (h1l : ¬ occursP "Flask2Fly".data (pyLower n).data)
    (h2l : ¬ occursP "flask2fly".data (pyLower n).data)
    (h3l : ¬ occursP "FLASK2FLY".data (pyLower n).data)
    (h1u : ¬ occursP "Flask2Fly".data (pyUpper n).data)
    (h2u : ¬ occursP "flask2fly".data (pyUpper n).data)
    (h3u : ¬ occursP "FLASK2FLY".data (pyUpper n).data) :
    update_template_content n
        (String.mk ("<p>".data ++ (n.data ++ ("</p>\n<p>".data ++ ((pyLower n).data
          ++ ("</p>\n<p>".data ++ ((pyUpper n).data ++ "</p>\n".data)))))))
      = String.mk ("<p>".data ++ (n.data ++ ("</p>\n<p>".data ++ ((pyLower n).data
          ++ ("</p>\n<p>".data ++ ((pyUpper n).data ++ "</p>\n".data)))))) := by
  have a1 := template_no_occurs "Flask2Fly".data n (by decide) (by decide) (by decide)
    (by decide) (by decide) h1 h1l h1u
  have a2 := template_no_occurs "flask2fly".data n (by decide) (by decide) (by decide)
    (by decide) (by decide) h2 h2l h2u
  have a3 := template_no_occurs "FLASK2FLY".data n (by decide) (by decide) (by decide)
    (by decide) (by decide) h3 h3l h3u
  have a4 := template_no_occurs "flask2fly logo".data n (by decide) (by decide) (by decide)
    (by decide) (by decide) (not_occursP_logo h2) (not_occursP_logo h2l)
    (not_occursP_logo h2u)
  show pyReplace (pyReplace (pyReplace (pyReplace
      (String.mk ("<p>".data ++ (n.data ++ ("</p>\n<p>".data ++ ((pyLower n).data
        ++ ("</p>\n<p>".data ++ ((pyUpper n).data ++ "</p>\n".data)))))))
      "Flask2Fly" n) "flask2fly" (pyLower n)) "FLASK2FLY" (pyUpper n))
      "flask2fly logo" (pyLower n ++ " logo") = _
  have i1 : pyReplace
      (String.mk ("<p>".data ++ (n.data ++ ("</p>\n<p>".data ++ ((pyLower n).data
        ++ ("</p>\n<p>".data ++ ((pyUpper n).data ++ "</p>\n".data)))))))
      "Flask2Fly" n
      = String.mk ("<p>".data ++ (n.data ++ ("</p>\n<p>".data ++ ((pyLower n).data
          ++ ("</p>\n<p>".data ++ ((pyUpper n).data ++ "</p>\n".data)))))) := by
    unfold pyReplace
    congr 1
    exact replaceAll_of_not_occursP _ _ _ a1
  rw [i1]
  have i2 : pyReplace
      (String.mk ("<p>".data ++ (n.data ++ ("</p>\n<p>".data ++ ((pyLower n).data
        ++ ("</p>\n<p>".data ++ ((pyUpper n).data ++ "</p>\n".data)))))))
      "flask2fly" (pyLower n)
      = String.mk ("<p>".data ++ (n.data ++ ("</p>\n<p>".data ++ ((pyLower n).data
          ++ ("</p>\n<p>".data ++ ((pyUpper n).data ++ "</p>\n".data)))))) := by
    unfold pyReplace
    congr 1
    exact replaceAll_of_not_occursP _ _ _ a2
  rw [i2]
  have i3 : pyReplace
      (String.mk ("<p>".data ++ (n.data ++ ("</p>\n<p>".data ++ ((pyLower n).data
        ++ ("</p>\n<p>".data ++ ((pyUpper n).data ++ "</p>\n".data)))))))
      "FLASK2FLY" (pyUpper n)
      = String.mk ("<p>".data ++ (n.data ++ ("</p>\n<p>".data ++ ((pyLower n).data
          ++ ("</p>\n<p>".data ++ ((pyUpper n).data ++ "</p>\n".data)))))) := by
    unfold pyReplace
    congr 1
    exact replaceAll_of_not_occursP _ _ _ a3
  rw [i3]
  have i4 : pyReplace
      (String.mk ("<p>".data ++ (n.data ++ ("</p>\n<p>".data ++ ((pyLower n).data
        ++ ("</p>\n<p>".data ++ ((pyUpper n).data ++ "</p>\n".data)))))))
      "flask2fly logo" (pyLower n ++ " logo")
      = String.mk ("<p>".data ++ (n.data ++ ("</p>\n<p>".data ++ ((pyLower n).data
          ++ ("</p>\n<p>".data ++ ((pyUpper n).data ++ "</p>\n".data)))))) := by
    unfold pyReplace
    congr 1
    exact replaceAll_of_not_occursP _ _ _ a4
  rw [i4]

/-- C3 (counterexample).  For the valid project name `Flask2FlyPlus` —
which contains the brand string — the rewritten README still contains
`Flask2Fly`, and applying the same substitution a second time changes the
content again; both halves of the claim fail. -/
theorem C3_counterexample :
    validate_inputs "Flask2FlyPlus" = true ∧
    pyContains (update_readme "Flask2FlyPlus" README_src) "Flask2Fly" = true ∧
    update_readme "Flask2FlyPlus" (update_readme "Flask2FlyPlus" README_src)
      ≠ update_readme "Flask2FlyPlus" README_src := by
  refine ⟨by decide, by decide, by decide⟩

/-- C3 (amended).  For every project name in the spec's pattern language in
which none of the three brand variants `Flask2Fly` / `flask2fly` /
`FLASK2FLY` occurs — neither in the name itself nor in its lower- or
upper-cased forms — each of the five known configuration/template rewrites
(README.md, fly.toml, docker-compose.yml, Dockerfile, and an HTML template)
produces content free of the brand string `Flask2Fly`, and applying the same
substitution a second time to the rewritten content is a no-op.  (Without
the brand-freeness restriction the claim fails: see the counterexample.) -/
theorem C3_brand_removal (n : String)
    (hvalid : matchesPattern n.data = true)
    (hfree : ∀ p ∈ ["Flask2Fly", "flask2fly", "FLASK2FLY"],
      ∀ q ∈ [n, pyLower n, pyUpper n], ¬ occursP p.data q.data) :
    (¬ occursP "Flask2Fly".data (update_readme n README_src).data ∧
      update_readme n (update_readme n README_src) = update_readme n README_src) ∧
    (¬ occursP "Flask2Fly".data (update_flytoml n FLY_src).data ∧
      update_flytoml n (update_flytoml n FLY_src) = update_flytoml n FLY_src) ∧
    (¬ occursP "Flask2Fly".data (update_composeyml n COMPOSE_src).data ∧
      update_composeyml n (update_composeyml n COMPOSE_src)
        = update_composeyml n COMPOSE_src) ∧
    (¬ occursP "Flask2Fly".data (update_dockerfile n DOCKER_src).data ∧
      update_dockerfile n (update_dockerfile n DOCKER_src)
        = update_dockerfile n DOCKER_src) ∧
    (¬ occursP "Flask2Fly".data (update_template_content n TEMPLATE_src).data ∧
      update_template_content n (update_template_content n TEMPLATE_src)
        = update_template_content n TEMPLATE_src) := by
  obtain ⟨hne, hchars⟩ := matchesPattern_chars hvalid
  have hnl : ∀ c ∈ n.data, c ≠ '\n' :=
    fun c hc => nameChar_ne_of '\n' (hchars c hc) (by decide)
  have h1 := hfree "Flask2Fly" (by simp) n (by simp)
  have h2 := hfree "flask2fly" (by simp) n (by simp)
  have h3 := hfree "FLASK2FLY" (by simp) n (by simp)
  have h1l := hfree "Flask2Fly" (by simp) (pyLower n) (by simp)
  have h2l := hfree "flask2fly" (by simp) (pyLower n) (by simp)
  have h3l := hfree "FLASK2FLY" (by simp) (pyLower n) (by simp)
  have h1u := hfree "Flask2Fly" (by simp) (pyUpper n) (by simp)
  have h2u := hfree "flask2fly" (by simp) (pyUpper n) (by simp)
  have h3u := hfree "FLASK2FLY" (by simp) (pyUpper n) (by simp)
  refine ⟨⟨?_, ?_⟩, ⟨?_, ?_⟩, ⟨?_, ?_⟩, ⟨?_, ?_⟩, ⟨?_, ?_⟩⟩
  · rw [readme_eval n]
    exact readme_no_brand n h1
  · exact readme_idem n h1
  · rw [fly_eval n]
    exact fly_no_brand n h1
  · rw [fly_eval n]
    exact fly_idem n hnl
  · rw [compose_eval n]
    exact compose_no_brand n h1
  · rw [compose_eval n]
    exact compose_idem n hnl hchars
  · rw [docker_eval n]
    exact docker_no_brand n h1
  · rw [docker_eval n]
    exact docker_idem n hchars hne
  · rw [template_eval n h2 h3 h2l h3l h2u]
    exact template_no_occurs "Flask2Fly".data n (by decide) (by decide) (by decide)
      (by decide) (by decide) h1 h1l h1u
  · rw [template_eval n h2 h3 h2l h3l h2u]
    exact template_idem n h1 h2 h3 h1l h2l h3l h1u h2u h3u

theorem C3_witness :
    matchesPattern "MyApp".data = true ∧
    ((¬ occursP "Flask2Fly".data (update_readme "MyApp" README_src).data ∧
      update_readme "MyApp" (update_readme "MyApp" README_src)
        = update_readme "MyApp" README_src) ∧
    (¬ occursP "Flask2Fly".data (update_flytoml "MyApp" FLY_src).data ∧
      update_flytoml "MyApp" (update_flytoml "MyApp" FLY_src)
        = update_flytoml "MyApp" FLY_src) ∧
    (¬ occursP "Flask2Fly".data (update_composeyml "MyApp" COMPOSE_src).data ∧
      update_composeyml "MyApp" (update_composeyml "MyApp" COMPOSE_src)
        = update_composeyml "MyApp" COMPOSE_src) ∧
    (¬ occursP "Flask2Fly".data (update_dockerfile "MyApp" DOCKER_src).data ∧
      update_dockerfile "MyApp" (update_dockerfile "MyApp" DOCKER_src)
        = update_dockerfile "MyApp" DOCKER_src) ∧
    (¬ occursP "Flask2Fly".data (update_template_content "MyApp" TEMPLATE_src).data ∧
      update_template_content "MyApp" (update_template_content "MyApp" TEMPLATE_src)
        = update_template_content "MyApp" TEMPLATE_src)) := by
  refine ⟨by decide, C3_brand_removal "MyApp" (by decide) ?_⟩
  intro p hp q hq
  simp only [List.mem_cons, List.not_mem_nil, or_false] at hp hq
  rcases hp with rfl | rfl | rfl <;> rcases hq with rfl | rfl | rfl <;>
    exact not_occursP_of_containsL (by decide)

end Flask2Fly
